import Mathlib

/-! Verification of the content retrieval and ranking engine of the Whispr
backend, as implemented in `src/backend/app/api/routes/search.py` and
`src/backend/app/api/routes/feed.py`.  The embedding is shallow: Python
strings become `List Char`, SQL tables become Lean lists of records, float
arithmetic becomes real arithmetic, and the process-wide random source of
the feed becomes explicit function parameters (a stream of draws and an
injected shuffle), matching the design notes that call for an injected
randomness dependency. -/

namespace Whispr

/-- Text is modelled as a list of characters. -/
abbrev Str := List Char

/-- Characters matched by the Python regex class for whitespace. -/
def isSpaceChar (c : Char) : Bool := c.isWhitespace

/-- Characters matched by the Python regex word class: alphanumeric or underscore. -/
def isWordChar (c : Char) : Bool := c.isAlphanum || c == '_'

/-- Python `str.strip()`: remove leading and trailing whitespace. -/
def pyStrip (s : Str) : Str :=
  ((s.dropWhile isSpaceChar).reverse.dropWhile isSpaceChar).reverse

/-- Python `str.lower()`: lowercase every character. -/
def pyLower (s : Str) : Str := s.map Char.toLower

/-- The substitution `re.sub` of all characters outside the word and
whitespace classes by the empty string (from `preprocess_query`). -/
def removeSpecial (s : Str) : Str :=
  s.filter (fun c => isWordChar c || isSpaceChar c)

/-- Worker for `collapseWs`: the flag records whether the scan is inside
a whitespace run, so each maximal run emits exactly one space. -/
def collapseWsAux : Bool → Str → Str
  | _, [] => []
  | inRun, c :: cs =>
    if isSpaceChar c then
      if inRun then collapseWsAux true cs
      else ' ' :: collapseWsAux true cs
    else c :: collapseWsAux false cs

/-- The substitution `re.sub` of every maximal whitespace run by a single
space (from `preprocess_query`). -/
def collapseWs (s : Str) : Str := collapseWsAux false s

/-- Function `preprocess_query` from `search.py`: strip, lowercase, drop special
characters, collapse whitespace runs. -/
def preprocess_query (query : Str) : Str :=
  collapseWs (removeSpecial (pyLower (pyStrip query)))

/-- Raw segments of a string split at each whitespace character
(empty segments included). -/
def splitSegs : Str → List Str
  | [] => []
  | c :: cs =>
    let acc := splitSegs cs
    if isSpaceChar c then [] :: acc
    else
      match acc with
      | [] => [[c]]
      | w :: ws => (c :: w) :: ws

/-- Python `str.split()` with no separator: split on whitespace runs,
discarding empty segments. -/
def splitWs (s : Str) : List Str := (splitSegs s).filter (fun w => !w.isEmpty)

/-- The token sequence produced for a raw query in the `search` handler:
`preprocess_query(query).split()`. -/
def queryTokens (query : Str) : List Str := splitWs (preprocess_query query)

/-- Whether `n` is a prefix of the second argument (Boolean). -/
def isPrefixB : Str → Str → Bool
  | [], _ => true
  | _ :: _, [] => false
  | a :: as, b :: bs => a == b && isPrefixB as bs

/-- Python substring test `n in h` (Boolean infix test). -/
def isInfixB (n : Str) : Str → Bool
  | [] => isPrefixB n []
  | c :: t => isPrefixB n (c :: t) || isInfixB n t

/-- Worker for `countOccur`: the counter records how many further
positions are still covered by the previous match, so occurrences never
overlap (as in Python `str.count`). -/
def countOccurAux (n : Str) : Nat → Str → Nat
  | _ + 1, [] => 0
  | k + 1, _ :: t => countOccurAux n k t
  | 0, [] => 0
  | 0, c :: t =>
    if isPrefixB n (c :: t) then 1 + countOccurAux n (n.length - 1) t
    else countOccurAux n 0 t

/-- Python `h.count(n)`: number of non-overlapping occurrences of `n` in
`h`, scanning from the left. -/
def countOccur (n : Str) (h : Str) : Nat :=
  if n.isEmpty then h.length + 1
  else countOccurAux n 0 h

/-- The space-joined phrase of a token list (Python join with a space). -/
def joinSpace (tokens : List Str) : Str := List.intercalate [' '] tokens

/-- Contribution of one token to `calculate_relevance_score`: if the token
occurs in the lowercased text, the logarithm of one plus its occurrence
count, scaled by the field weight; otherwise zero. -/
noncomputable def tokenScore (tok : Str) (text : Str) (w : ℝ) : ℝ :=
  if isInfixB tok text then Real.log (1 + (countOccur tok text : ℝ)) * w else 0

/-- Function `calculate_relevance_score` from `search.py`: zero for empty text or
empty token list; otherwise the sum of per-token logarithmic scores over
the lowercased text, multiplied by 1.5 when a multi-token query occurs as
an exact phrase. -/
noncomputable def calculate_relevance_score
    (query_tokens : List Str) (text : Str) (field_weight : ℝ) : ℝ :=
  if text.isEmpty || query_tokens.isEmpty then 0
  else
    let t := pyLower text
    let base := (query_tokens.map (fun tok => tokenScore tok t field_weight)).sum
    if 1 < query_tokens.length && isInfixB (joinSpace query_tokens) t then
      base * 1.5
    else base

/-- The static field weight table of `combine_relevance_scores`
(default weight 1.0 for unlisted fields). -/
noncomputable def fieldWeightTable (f : String) : ℝ :=
  if f = "name" then 5.0
  else if f = "code" then 5.0
  else if f = "title" then 3.0
  else if f = "description" then 2.0
  else if f = "content" then 1.0
  else if f = "lab" then 2.0
  else if f = "summary" then 1.5
  else 1.0

/-- Function `combine_relevance_scores` from `search.py`: the sum over all entries
of score times field weight (no discarding, no averaging, no rounding and
no clamping). -/
noncomputable def combine_relevance_scores (scores : List (String × ℝ)) : ℝ :=
  (scores.map (fun p => p.2 * fieldWeightTable p.1)).sum

/-- Entity kinds searchable through the endpoint (schema `EntityType`). -/
inductive EntityType
  | course
  | professor
  | review
  | reply
  | course_instructor
deriving DecidableEq

/-- Sort fields of the search endpoint (schema `SortField`). -/
inductive SortField
  | relevance
  | name
  | rating
  | created_at
  | updated_at
  | code
deriving DecidableEq

/-- Sort directions of the search endpoint (schema `SortOrder`). -/
inductive SortOrder
  | asc
  | desc
deriving DecidableEq

/-- A row of the `courses` table (fields used by search). -/
structure Course where
  id : Nat
  name : Str
  code : Str
  description : Option Str
  created_at : Int
  updated_at : Int
deriving DecidableEq

/-- A row of the `professors` table (fields used by search). -/
structure Professor where
  id : Nat
  name : Str
  lab : Option Str
  review_summary : Option Str
  average_rating : ℚ
  created_at : Int
  updated_at : Int
deriving DecidableEq

/-- A row of the `course_instructors` link table (fields used by search). -/
structure CourseInstructor where
  id : Nat
  course_id : Nat
  professor_id : Nat
  semester : Str
  summary : Option Str
  created_at : Int
  updated_at : Int
deriving DecidableEq

/-- A row of the `reviews` table (fields used by search and feed). -/
structure Review where
  id : Nat
  user_id : Nat
  course_id : Option Nat
  professor_id : Option Nat
  course_instructor_id : Option Nat
  rating : Int
  content : Str
  created_at : Int
  updated_at : Int
deriving DecidableEq

/-- A row of the `replies` table (fields used by search). -/
structure Reply where
  id : Nat
  user_id : Nat
  review_id : Nat
  content : Str
  created_at : Int
  updated_at : Int
deriving DecidableEq

/-- A row of the `users` table (only the key is needed by search joins). -/
structure User where
  id : Nat
deriving DecidableEq

/-- The read-only relational store the search endpoint queries. -/
structure Store where
  courses : List Course
  professors : List Professor
  course_instructors : List CourseInstructor
  reviews : List Review
  replies : List Reply
  users : List User

/-- The request body of the search endpoint (schema `SearchParams`). -/
structure SearchParams where
  query : Str
  deep : Bool
  entity_types : Option (List EntityType)
  course_id : Option Nat
  professor_id : Option Nat
  min_rating : Option Int
  max_rating : Option Int
  sort_by : Option SortField
  sort_order : Option SortOrder
  skip : Nat
  limit : Nat

/-- SQL expression matching a column against a token with percent wildcards on both sides: case-insensitive substring test. -/
def ilike (field : Str) (tok : Str) : Bool :=
  isInfixB (pyLower tok) (pyLower field)

/-- SQL `ILIKE` against a nullable column: a SQL NULL never matches. -/
def ilikeOpt (field : Option Str) (tok : Str) : Bool :=
  match field with
  | none => false
  | some s => ilike s tok

/-- The OR of the LIKE expressions built by `search_courses`: name and code
for every token, plus description when `deep` is set. -/
def courseMatches (tokens : List Str) (deep : Bool) (c : Course) : Bool :=
  tokens.any fun t => ilike c.name t || ilike c.code t || (deep && ilikeOpt c.description t)

/-- The OR of the LIKE expressions built by `search_professors`: name for
every token, plus lab and review summary when `deep` is set. -/
def professorMatches (tokens : List Str) (deep : Bool) (p : Professor) : Bool :=
  tokens.any fun t => ilike p.name t || (deep && (ilikeOpt p.lab t || ilikeOpt p.review_summary t))

/-- The joined rows of `search_course_instructors`: each link row paired
with its course and professor (inner join on both keys). -/
def ciRows (s : Store) : List (CourseInstructor × Course × Professor) :=
  s.course_instructors.filterMap fun ci =>
    match s.courses.find? (fun c => c.id == ci.course_id),
          s.professors.find? (fun pr => pr.id == ci.professor_id) with
    | some c, some pr => some (ci, c, pr)
    | _, _ => none

/-- The filter of `search_course_instructors`: optional course and
professor id filters AND the OR of the per-token LIKE expressions (the
token disjunction is omitted when the token list is empty). -/
def ciRowMatches (tokens : List Str) (p : SearchParams)
    (row : CourseInstructor × Course × Professor) : Bool :=
  (match p.course_id with | none => true | some cid => row.1.course_id == cid) &&
  (match p.professor_id with | none => true | some pid => row.1.professor_id == pid) &&
  (tokens.isEmpty || tokens.any fun t =>
    ilike row.2.1.name t || ilike row.2.1.code t || ilike row.2.2.name t ||
    ilike row.1.semester t ||
    (p.deep && (ilikeOpt row.2.1.description t || ilikeOpt row.2.2.lab t ||
                ilikeOpt row.1.summary t)))

/-- The joined rows of `search_reviews`: each review paired with its
author (inner join on the user key). -/
def reviewRows (s : Store) : List (Review × User) :=
  s.reviews.filterMap fun r =>
    (s.users.find? (fun u => u.id == r.user_id)).map (fun u => (r, u))

/-- The filter of `search_reviews`: optional course, professor and rating
filters AND the OR of the per-token content LIKE expressions. -/
def reviewMatches (tokens : List Str) (p : SearchParams) (r : Review) : Bool :=
  (match p.course_id with | none => true | some cid => r.course_id == some cid) &&
  (match p.professor_id with | none => true | some pid => r.professor_id == some pid) &&
  (match p.min_rating with | none => true | some m => decide (m ≤ r.rating)) &&
  (match p.max_rating with | none => true | some m => decide (r.rating ≤ m)) &&
  (tokens.isEmpty || tokens.any fun t => ilike r.content t)

/-- The joined rows of `search_replies`. -/
def replyRows (s : Store) : List (Reply × User) :=
  s.replies.filterMap fun r =>
    (s.users.find? (fun u => u.id == r.user_id)).map (fun u => (r, u))

/-- The filter of `search_replies`: the OR of the per-token content LIKE
expressions. -/
def replyMatches (tokens : List Str) (r : Reply) : Bool :=
  tokens.isEmpty || tokens.any fun t => ilike r.content t

/-- SQL `ORDER BY key` with the direction taken from the request:
ascending exactly when `sort_order` equals `asc`, otherwise descending
(matching `asc if params.sort_order == SortOrder.ASC else desc`). -/
def orderRel {α : Type} {β : Type} [LinearOrder β] (key : α → β)
    (ord : Option SortOrder) (a b : α) : Prop :=
  if ord = some SortOrder.asc then key a ≤ key b else key b ≤ key a

instance {α : Type} {β : Type} [LinearOrder β] (key : α → β) (ord : Option SortOrder) :
    DecidableRel (orderRel key ord) := fun a b =>
  inferInstanceAs
    (Decidable (if ord = some SortOrder.asc then key a ≤ key b else key b ≤ key a))

/-- A scored search result payload. -/
inductive Payload
  | course (c : Course)
  | professor (p : Professor)
  | courseInstructor (ci : CourseInstructor) (c : Course) (p : Professor)
  | review (r : Review) (u : User)
  | reply (r : Reply) (u : User)

/-- One entry of a search response (schema `SearchResult`). -/
structure ScoredItem where
  entity_type : EntityType
  relevance_score : ℝ
  payload : Payload

/-- The order multiplier of the per-adapter relevance sort:
`1 if params.sort_order == SortOrder.ASC else -1`. -/
noncomputable def orderMult (ord : Option SortOrder) : ℝ :=
  if ord = some SortOrder.asc then 1 else -1

/-- The per-adapter relevance sort: Python ascending stable sort on
`relevance_score * order_multiplier`. -/
noncomputable def relRel (ord : Option SortOrder) (a b : ScoredItem) : Prop :=
  a.relevance_score * orderMult ord ≤ b.relevance_score * orderMult ord

noncomputable instance (ord : Option SortOrder) : DecidableRel (relRel ord) := fun x y =>
  inferInstanceAs (Decidable (x.relevance_score * orderMult ord ≤ y.relevance_score * orderMult ord))

/-- The final combined sort of the `search` handler:
`results.sort(key=lambda x: x.relevance_score, reverse=True)`, a stable
descending sort on the relevance score alone. -/
noncomputable def mergedRel (a b : ScoredItem) : Prop :=
  b.relevance_score ≤ a.relevance_score

noncomputable instance : DecidableRel mergedRel := fun x y =>
  inferInstanceAs (Decidable (y.relevance_score ≤ x.relevance_score))

/-- Python slice `l[skip : skip + limit]`. -/
def pySlice (skip limit : Nat) (l : List α) : List α := (l.drop skip).take limit

/-- Candidate courses after the WHERE clause of `search_courses`. -/
def courseMatched (s : Store) (tokens : List Str) (p : SearchParams) : List Course :=
  s.courses.filter (courseMatches tokens p.deep)

/-- Candidate courses after the ORDER BY clause of `search_courses`
(no ordering for relevance or rating sorts). -/
def courseOrdered (s : Store) (tokens : List Str) (p : SearchParams) : List Course :=
  if p.sort_by = some SortField.name then
    List.insertionSort (orderRel Course.name p.sort_order) (courseMatched s tokens p)
  else if p.sort_by = some SortField.code then
    List.insertionSort (orderRel Course.code p.sort_order) (courseMatched s tokens p)
  else if p.sort_by = some SortField.created_at then
    List.insertionSort (orderRel Course.created_at p.sort_order) (courseMatched s tokens p)
  else if p.sort_by = some SortField.updated_at then
    List.insertionSort (orderRel Course.updated_at p.sort_order) (courseMatched s tokens p)
  else courseMatched s tokens p

/-- Courses actually retrieved and scored by `search_courses`: the store
applies OFFSET and LIMIT unless the sort field is relevance. -/
def courseFetched (s : Store) (tokens : List Str) (p : SearchParams) : List Course :=
  if p.sort_by = some SortField.relevance then courseOrdered s tokens p
  else pySlice p.skip p.limit (courseOrdered s tokens p)

/-- The per-field score dictionary built for one course. -/
noncomputable def courseFieldScores (tokens : List Str) (deep : Bool) (c : Course) :
    List (String × ℝ) :=
  [("name", calculate_relevance_score tokens c.name 5.0),
   ("code", calculate_relevance_score tokens c.code 5.0)] ++
  (match c.description with
   | some d =>
     if deep && !d.isEmpty then [("description", calculate_relevance_score tokens d 2.0)]
     else []
   | none => [])

/-- The scored search result built for one course. -/
noncomputable def courseItem (tokens : List Str) (deep : Bool) (c : Course) : ScoredItem :=
  ⟨EntityType.course, combine_relevance_scores (courseFieldScores tokens deep c),
   Payload.course c⟩

/-- Function `search_courses` from `search.py`: scored results (relevance-sorted
and paginated inside the adapter when sorting by relevance) together with
the pre-pagination match count. -/
noncomputable def search_courses (s : Store) (tokens : List Str) (p : SearchParams) :
    List ScoredItem × Nat :=
  let results := (courseFetched s tokens p).map (courseItem tokens p.deep)
  (if p.sort_by = some SortField.relevance then
     pySlice p.skip p.limit (List.insertionSort (relRel p.sort_order) results)
   else results,
   (courseMatched s tokens p).length)

/-- Candidate professors after the WHERE clause of `search_professors`. -/
def professorMatched (s : Store) (tokens : List Str) (p : SearchParams) : List Professor :=
  s.professors.filter (professorMatches tokens p.deep)

/-- Candidate professors after the ORDER BY clause of `search_professors`. -/
def professorOrdered (s : Store) (tokens : List Str) (p : SearchParams) : List Professor :=
  if p.sort_by = some SortField.name then
    List.insertionSort (orderRel Professor.name p.sort_order) (professorMatched s tokens p)
  else if p.sort_by = some SortField.rating then
    List.insertionSort (orderRel Professor.average_rating p.sort_order) (professorMatched s tokens p)
  else if p.sort_by = some SortField.created_at then
    List.insertionSort (orderRel Professor.created_at p.sort_order) (professorMatched s tokens p)
  else if p.sort_by = some SortField.updated_at then
    List.insertionSort (orderRel Professor.updated_at p.sort_order) (professorMatched s tokens p)
  else professorMatched s tokens p

/-- Professors actually retrieved and scored by `search_professors`. -/
def professorFetched (s : Store) (tokens : List Str) (p : SearchParams) : List Professor :=
  if p.sort_by = some SortField.relevance then professorOrdered s tokens p
  else pySlice p.skip p.limit (professorOrdered s tokens p)

/-- The per-field score dictionary built for one professor: the lab and
review summary fields are added in deep mode whenever they are non-NULL
(even when empty). -/
noncomputable def professorFieldScores (tokens : List Str) (deep : Bool) (pr : Professor) :
    List (String × ℝ) :=
  [("name", calculate_relevance_score tokens pr.name 5.0)] ++
  (if deep then
     (match pr.lab with
      | some d => [("lab", calculate_relevance_score tokens d 2.0)]
      | none => []) ++
     (match pr.review_summary with
      | some d => [("summary", calculate_relevance_score tokens d 1.5)]
      | none => [])
   else [])

/-- The scored search result built for one professor. -/
noncomputable def professorItem (tokens : List Str) (deep : Bool) (pr : Professor) : ScoredItem :=
  ⟨EntityType.professor, combine_relevance_scores (professorFieldScores tokens deep pr),
   Payload.professor pr⟩

/-- Function `search_professors` from `search.py`. -/
noncomputable def search_professors (s : Store) (tokens : List Str) (p : SearchParams) :
    List ScoredItem × Nat :=
  let results := (professorFetched s tokens p).map (professorItem tokens p.deep)
  (if p.sort_by = some SortField.relevance then
     pySlice p.skip p.limit (List.insertionSort (relRel p.sort_order) results)
   else results,
   (professorMatched s tokens p).length)

/-- Candidate joined rows after the WHERE clause of
`search_course_instructors`. -/
def ciMatched (s : Store) (tokens : List Str) (p : SearchParams) :
    List (CourseInstructor × Course × Professor) :=
  (ciRows s).filter (ciRowMatches tokens p)

/-- Candidate joined rows after the ORDER BY clause of
`search_course_instructors` (name sorts on the professor name, code on
the course code, timestamps on the link row). -/
def ciOrdered (s : Store) (tokens : List Str) (p : SearchParams) :
    List (CourseInstructor × Course × Professor) :=
  if p.sort_by = some SortField.name then
    List.insertionSort (orderRel (fun row => row.2.2.name) p.sort_order) (ciMatched s tokens p)
  else if p.sort_by = some SortField.code then
    List.insertionSort (orderRel (fun row => row.2.1.code) p.sort_order) (ciMatched s tokens p)
  else if p.sort_by = some SortField.created_at then
    List.insertionSort (orderRel (fun row => row.1.created_at) p.sort_order) (ciMatched s tokens p)
  else if p.sort_by = some SortField.updated_at then
    List.insertionSort (orderRel (fun row => row.1.updated_at) p.sort_order) (ciMatched s tokens p)
  else ciMatched s tokens p

/-- Joined rows actually retrieved and scored by
`search_course_instructors`. -/
def ciFetched (s : Store) (tokens : List Str) (p : SearchParams) :
    List (CourseInstructor × Course × Professor) :=
  if p.sort_by = some SortField.relevance then ciOrdered s tokens p
  else pySlice p.skip p.limit (ciOrdered s tokens p)

/-- The per-field score dictionary built for one joined row: deep mode
adds description, lab and summary only when truthy (non-NULL and
non-empty). -/
noncomputable def ciFieldScores (tokens : List Str) (deep : Bool)
    (row : CourseInstructor × Course × Professor) : List (String × ℝ) :=
  [("course_name", calculate_relevance_score tokens row.2.1.name 4.0),
   ("course_code", calculate_relevance_score tokens row.2.1.code 4.0),
   ("professor_name", calculate_relevance_score tokens row.2.2.name 4.0),
   ("semester", calculate_relevance_score tokens row.1.semester 3.0)] ++
  (if deep then
     (match row.2.1.description with
      | some d =>
        if !d.isEmpty then [("course_description", calculate_relevance_score tokens d 1.5)]
        else []
      | none => []) ++
     (match row.2.2.lab with
      | some d =>
        if !d.isEmpty then [("professor_lab", calculate_relevance_score tokens d 1.5)]
        else []
      | none => []) ++
     (match row.1.summary with
      | some d =>
        if !d.isEmpty then [("summary", calculate_relevance_score tokens d 2.0)]
        else []
      | none => [])
   else [])

/-- The scored search result built for one joined row: here the combined
score is the plain sum of the field scores (`sum(scores.values())`),
without the weight table. -/
noncomputable def ciItem (tokens : List Str) (deep : Bool)
    (row : CourseInstructor × Course × Professor) : ScoredItem :=
  ⟨EntityType.course_instructor, ((ciFieldScores tokens deep row).map Prod.snd).sum,
   Payload.courseInstructor row.1 row.2.1 row.2.2⟩

/-- Function `search_course_instructors` from `search.py`. -/
noncomputable def search_course_instructors (s : Store) (tokens : List Str) (p : SearchParams) :
    List ScoredItem × Nat :=
  let results := (ciFetched s tokens p).map (ciItem tokens p.deep)
  (if p.sort_by = some SortField.relevance then
     pySlice p.skip p.limit (List.insertionSort (relRel p.sort_order) results)
   else results,
   (ciMatched s tokens p).length)

/-- Candidate review rows after the WHERE clause of `search_reviews`. -/
def reviewMatched (s : Store) (tokens : List Str) (p : SearchParams) : List (Review × User) :=
  (reviewRows s).filter (fun ru => reviewMatches tokens p ru.1)

/-- Candidate review rows after the ORDER BY clause of `search_reviews`
(rating and timestamps only). -/
def reviewOrdered (s : Store) (tokens : List Str) (p : SearchParams) : List (Review × User) :=
  if p.sort_by = some SortField.rating then
    List.insertionSort (orderRel (fun ru : Review × User => ru.1.rating) p.sort_order)
      (reviewMatched s tokens p)
  else if p.sort_by = some SortField.created_at then
    List.insertionSort (orderRel (fun ru : Review × User => ru.1.created_at) p.sort_order)
      (reviewMatched s tokens p)
  else if p.sort_by = some SortField.updated_at then
    List.insertionSort (orderRel (fun ru : Review × User => ru.1.updated_at) p.sort_order)
      (reviewMatched s tokens p)
  else reviewMatched s tokens p

/-- Review rows actually retrieved and scored by `search_reviews`. -/
def reviewFetched (s : Store) (tokens : List Str) (p : SearchParams) : List (Review × User) :=
  if p.sort_by = some SortField.relevance then reviewOrdered s tokens p
  else pySlice p.skip p.limit (reviewOrdered s tokens p)

/-- The scored search result built for one review row: a single content
score with weight 1.0, no combination step. -/
noncomputable def reviewItem (tokens : List Str) (ru : Review × User) : ScoredItem :=
  ⟨EntityType.review, calculate_relevance_score tokens ru.1.content 1.0,
   Payload.review ru.1 ru.2⟩

/-- Function `search_reviews` from `search.py`. -/
noncomputable def search_reviews (s : Store) (tokens : List Str) (p : SearchParams) :
    List ScoredItem × Nat :=
  let results := (reviewFetched s tokens p).map (reviewItem tokens)
  (if p.sort_by = some SortField.relevance then
     pySlice p.skip p.limit (List.insertionSort (relRel p.sort_order) results)
   else results,
   (reviewMatched s tokens p).length)

/-- Candidate reply rows after the WHERE clause of `search_replies`. -/
def replyMatched (s : Store) (tokens : List Str) (_p : SearchParams) : List (Reply × User) :=
  (replyRows s).filter (fun ru => replyMatches tokens ru.1)

/-- Candidate reply rows after the ORDER BY clause of `search_replies`
(timestamps only). -/
def replyOrdered (s : Store) (tokens : List Str) (p : SearchParams) : List (Reply × User) :=
  if p.sort_by = some SortField.created_at then
    List.insertionSort (orderRel (fun ru : Reply × User => ru.1.created_at) p.sort_order)
      (replyMatched s tokens p)
  else if p.sort_by = some SortField.updated_at then
    List.insertionSort (orderRel (fun ru : Reply × User => ru.1.updated_at) p.sort_order)
      (replyMatched s tokens p)
  else replyMatched s tokens p

/-- Reply rows actually retrieved and scored by `search_replies`. -/
def replyFetched (s : Store) (tokens : List Str) (p : SearchParams) : List (Reply × User) :=
  if p.sort_by = some SortField.relevance then replyOrdered s tokens p
  else pySlice p.skip p.limit (replyOrdered s tokens p)

/-- The scored search result built for one reply row. -/
noncomputable def replyItem (tokens : List Str) (ru : Reply × User) : ScoredItem :=
  ⟨EntityType.reply, calculate_relevance_score tokens ru.1.content 1.0,
   Payload.reply ru.1 ru.2⟩

/-- Function `search_replies` from `search.py`. -/
noncomputable def search_replies (s : Store) (tokens : List Str) (p : SearchParams) :
    List ScoredItem × Nat :=
  let results := (replyFetched s tokens p).map (replyItem tokens)
  (if p.sort_by = some SortField.relevance then
     pySlice p.skip p.limit (List.insertionSort (relRel p.sort_order) results)
   else results,
   (replyMatched s tokens p).length)

/-- The entity kinds enabled for a request:
`params.entity_types or [all five]`, where the Python `or` also replaces
an explicit empty list by the default. -/
def enabledTypes (p : SearchParams) : List EntityType :=
  match p.entity_types with
  | none => [EntityType.course, EntityType.professor, EntityType.course_instructor,
             EntityType.review, EntityType.reply]
  | some [] => [EntityType.course, EntityType.professor, EntityType.course_instructor,
                EntityType.review, EntityType.reply]
  | some l => l

/-- The fan-out of the `search` handler: every enabled adapter is invoked
(review and reply only in deep mode), results are concatenated in the
fixed order course, professor, course-instructor, review, reply, and the
per-adapter counts are summed. -/
noncomputable def searchRaw (p : SearchParams) (s : Store) : List ScoredItem × Nat :=
  let tokens := queryTokens p.query
  let a1 := if EntityType.course ∈ enabledTypes p then search_courses s tokens p else ([], 0)
  let a2 := if EntityType.professor ∈ enabledTypes p then search_professors s tokens p else ([], 0)
  let a3 := if EntityType.course_instructor ∈ enabledTypes p then
      search_course_instructors s tokens p else ([], 0)
  let a4 := if p.deep ∧ EntityType.review ∈ enabledTypes p then
      search_reviews s tokens p else ([], 0)
  let a5 := if p.deep ∧ EntityType.reply ∈ enabledTypes p then
      search_replies s tokens p else ([], 0)
  (a1.1 ++ a2.1 ++ a3.1 ++ a4.1 ++ a5.1, a1.2 + a2.2 + a3.2 + a4.2 + a5.2)

/-- The merged result list after the final combined sort of the `search`
handler (stable, descending by relevance score, before the final slice). -/
noncomputable def mergedSorted (p : SearchParams) (s : Store) : List ScoredItem :=
  List.insertionSort mergedRel (searchRaw p s).1

/-- The response of the search endpoint (schema `SearchResponse`). -/
structure SearchResponse where
  total : Nat
  results : List ScoredItem
  query : Str
  deep : Bool

/-- The POST `search` handler: reject queries that normalize to zero
tokens with HTTP 400 before touching the store, otherwise fan out, merge,
sort and apply the final slice. -/
noncomputable def search (p : SearchParams) (s : Store) : Except Nat SearchResponse :=
  if (queryTokens p.query).isEmpty then Except.error 400
  else Except.ok ⟨(searchRaw p s).2, pySlice p.skip p.limit (mergedSorted p s), p.query, p.deep⟩

/-- The GET `search_get` handler: build a `SearchParams` from the query
parameters and delegate to `search`. -/
noncomputable def search_get (query : Str) (deep : Bool)
    (entity_types : Option (List EntityType)) (course_id professor_id : Option Nat)
    (min_rating max_rating : Option Int) (sort_by : Option SortField)
    (sort_order : Option SortOrder) (skip limit : Nat) (s : Store) :
    Except Nat SearchResponse :=
  search ⟨query, deep, entity_types, course_id, professor_id, min_rating, max_rating,
          sort_by, sort_order, skip, limit⟩ s

/-- The read-only data consulted by the feed endpoint: reviews and the
follower edge table. -/
structure FeedStore where
  reviews : List Review
  follows : List (Nat × Nat)

/-- The users followed by the viewer (`followed_ids_of`): second
components of the follower edges whose first component is the viewer. -/
def followedIds (st : FeedStore) (viewer : Nat) : List Nat :=
  (st.follows.filter (fun e => e.1 == viewer)).map Prod.snd

/-- Python `(now - created_at).days`: the floor of the elapsed time in
days, negative for future timestamps (times in seconds). -/
def daysOld (now created : Int) : Int := (now - created).fdiv 86400

/-- Inclusion probability of the social phase (`random.random() < 0.8`). -/
def socialProb : ℚ := 4/5

/-- Inclusion probability of the topical phase:
`max(0.1, 0.5 - days_old * 0.05)`. -/
def topicalProb (now : Int) (r : Review) : ℚ :=
  max (1/10) (1/2 - (daysOld now r.created_at : ℚ) * (1/20))

/-- Inclusion probability of the exploratory phase:
`max(0.1, 0.3 - days_old * 0.02)`. -/
def exploratoryProb (now : Int) (r : Review) : ℚ :=
  max (1/10) (3/10 - (daysOld now r.created_at : ℚ) * (1/50))

/-- Membership of a nullable column in a list (`column.in_(ids)`): a SQL
NULL never matches. -/
def optMemb (o : Option Nat) (l : List Nat) : Bool :=
  match o with
  | none => false
  | some x => l.contains x

/-- The sampling loop of the social phase: one independent draw per
candidate, no limit check.  Returns the extended feed and the next index
into the draw stream. -/
def sampleNoLimit (prob : Review → ℚ) (rng : Nat → ℚ) :
    Nat → List Review → List Review → List Review × Nat
  | i, acc, [] => (acc, i)
  | i, acc, c :: cs =>
    if rng i < prob c then sampleNoLimit prob rng (i + 1) (acc ++ [c]) cs
    else sampleNoLimit prob rng (i + 1) acc cs

/-- The sampling loop of the topical and exploratory phases: the loop
breaks once the feed reaches `limit`, otherwise each candidate gets one
independent draw. -/
def samplePhase (limit : Nat) (prob : Review → ℚ) (rng : Nat → ℚ) :
    Nat → List Review → List Review → List Review × Nat
  | i, acc, [] => (acc, i)
  | i, acc, c :: cs =>
    if limit ≤ acc.length then (acc, i)
    else if rng i < prob c then samplePhase limit prob rng (i + 1) (acc ++ [c]) cs
    else samplePhase limit prob rng (i + 1) acc cs

/-- The filter of phase 1: authored by a followed user and at most one
week old. -/
def phase1Cond (st : FeedStore) (viewer : Nat) (now : Int) (r : Review) : Bool :=
  (followedIds st viewer).contains r.user_id && decide (now - 604800 ≤ r.created_at)

/-- The candidate pool of phase 1, newest first. -/
def phase1Cand (st : FeedStore) (viewer : Nat) (now : Int) : List Review :=
  List.insertionSort (orderRel Review.created_at (some SortOrder.desc))
    (st.reviews.filter (phase1Cond st viewer now))

/-- Phase 1 of `get_feed`: reviews authored by followed users within the
last week, newest first, each kept with probability 0.8. -/
def phase1 (st : FeedStore) (viewer : Nat) (now : Int) (rng : Nat → ℚ) :
    List Review × Nat :=
  if followedIds st viewer ≠ [] then
    sampleNoLimit (fun _ => socialProb) rng 0 [] (phase1Cand st viewer now)
  else ([], 0)

/-- Course ids that followed users have reviewed. -/
def topicalCourseIds (st : FeedStore) (viewer : Nat) : List Nat :=
  (st.reviews.filter (fun r => (followedIds st viewer).contains r.user_id)).filterMap
    Review.course_id

/-- Professor ids that followed users have reviewed. -/
def topicalProfessorIds (st : FeedStore) (viewer : Nat) : List Nat :=
  (st.reviews.filter (fun r => (followedIds st viewer).contains r.user_id)).filterMap
    Review.professor_id

/-- Course-instructor ids that followed users have reviewed. -/
def topicalCiIds (st : FeedStore) (viewer : Nat) : List Nat :=
  (st.reviews.filter (fun r => (followedIds st viewer).contains r.user_id)).filterMap
    Review.course_instructor_id

/-- The filter of phase 2: on a followed subject, not authored by a
followed user, not authored by the viewer. -/
def phase2Cond (st : FeedStore) (viewer : Nat) (r : Review) : Bool :=
  (optMemb r.course_id (topicalCourseIds st viewer) ||
    optMemb r.professor_id (topicalProfessorIds st viewer) ||
    optMemb r.course_instructor_id (topicalCiIds st viewer)) &&
  !(followedIds st viewer).contains r.user_id && r.user_id != viewer

/-- The candidate pool of phase 2, newest first, capped at 50 rows. -/
def phase2Cand (st : FeedStore) (viewer : Nat) : List Review :=
  (List.insertionSort (orderRel Review.created_at (some SortOrder.desc))
    (st.reviews.filter (phase2Cond st viewer))).take 50

/-- Phase 2 of `get_feed`: reviews of subjects followed users have
reviewed, authored by users the viewer does not follow and who are not
the viewer, newest first, pool capped at 50, recency-decayed sampling. -/
def phase2 (st : FeedStore) (viewer : Nat) (now : Int) (limit : Nat) (rng : Nat → ℚ)
    (prev : List Review × Nat) : List Review × Nat :=
  if followedIds st viewer ≠ [] ∧ prev.1.length < limit then
    if topicalCourseIds st viewer ≠ [] ∨ topicalProfessorIds st viewer ≠ [] ∨
        topicalCiIds st viewer ≠ [] then
      samplePhase limit (topicalProb now) rng prev.2 prev.1 (phase2Cand st viewer)
    else prev
  else prev

/-- The filter of phase 3: not already selected, not authored by the viewer. -/
def phase3Cond (viewer : Nat) (excluded : List Nat) (r : Review) : Bool :=
  !excluded.contains r.id && r.user_id != viewer

/-- The candidate pool of phase 3: a random-order sample (the injected
`randOrder`) capped at three times the remaining slots. -/
def phase3Cand (st : FeedStore) (viewer : Nat) (excluded : List Nat) (remaining : Nat)
    (randOrder : List Review → List Review) : List Review :=
  (randOrder (st.reviews.filter (phase3Cond viewer excluded))).take (remaining * 3)

/-- Phase 3 of `get_feed`: a random-order sample of remaining reviews
(not already selected, not authored by the viewer), pool capped at three times
the remaining slots, recency-decayed sampling. -/
def phase3 (st : FeedStore) (viewer : Nat) (now : Int) (limit : Nat) (rng : Nat → ℚ)
    (randOrder : List Review → List Review) (prev : List Review × Nat) :
    List Review × Nat :=
  if prev.1.length < limit then
    samplePhase limit (exploratoryProb now) rng prev.2 prev.1
      (phase3Cand st viewer (prev.1.map Review.id) (limit - prev.1.length) randOrder)
  else prev

/-- Function `get_feed` from `feed.py`: the three phases in order, a final full
shuffle (injected), then the slice `[skip : skip + limit]`. -/
def get_feed (skip limit viewer : Nat) (now : Int) (st : FeedStore) (rng : Nat → ℚ)
    (shuffle randOrder : List Review → List Review) : List Review :=
  let s1 := phase1 st viewer now rng
  let s2 := phase2 st viewer now limit rng s1
  let s3 := phase3 st viewer now limit rng randOrder s2
  pySlice skip limit (shuffle s3.1)

/-- The timestamp a request sorting by `created_at` refers to, for each
payload kind. -/
def payloadCreatedAt : Payload → Int
  | Payload.course c => c.created_at
  | Payload.professor pr => pr.created_at
  | Payload.courseInstructor ci _ _ => ci.created_at
  | Payload.review r _ => r.created_at
  | Payload.reply r _ => r.created_at

/-- The sum over enabled adapters of the pre-pagination match counts:
the value the `search` handler returns as `total`. -/
def matchCountTotal (p : SearchParams) (s : Store) : Nat :=
  (if EntityType.course ∈ enabledTypes p then
     (courseMatched s (queryTokens p.query) p).length else 0) +
  (if EntityType.professor ∈ enabledTypes p then
     (professorMatched s (queryTokens p.query) p).length else 0) +
  (if EntityType.course_instructor ∈ enabledTypes p then
     (ciMatched s (queryTokens p.query) p).length else 0) +
  (if p.deep ∧ EntityType.review ∈ enabledTypes p then
     (reviewMatched s (queryTokens p.query) p).length else 0) +
  (if p.deep ∧ EntityType.reply ∈ enabledTypes p then
     (replyMatched s (queryTokens p.query) p).length else 0)

/-- The sum over enabled adapters of the per-adapter post-pagination
lengths `min(limit, match_count - skip)`: the length of the merged list
the handler then slices a second time. -/
def slicedCountTotal (p : SearchParams) (s : Store) : Nat :=
  (if EntityType.course ∈ enabledTypes p then
     min p.limit ((courseMatched s (queryTokens p.query) p).length - p.skip) else 0) +
  (if EntityType.professor ∈ enabledTypes p then
     min p.limit ((professorMatched s (queryTokens p.query) p).length - p.skip) else 0) +
  (if EntityType.course_instructor ∈ enabledTypes p then
     min p.limit ((ciMatched s (queryTokens p.query) p).length - p.skip) else 0) +
  (if p.deep ∧ EntityType.review ∈ enabledTypes p then
     min p.limit ((reviewMatched s (queryTokens p.query) p).length - p.skip) else 0) +
  (if p.deep ∧ EntityType.reply ∈ enabledTypes p then
     min p.limit ((replyMatched s (queryTokens p.query) p).length - p.skip) else 0)

/-- The number of candidates actually fetched and scored across enabled
adapters (all matches under relevance sorting, a page per adapter
otherwise). -/
def scoredCountTotal (p : SearchParams) (s : Store) : Nat :=
  (if EntityType.course ∈ enabledTypes p then
     (courseFetched s (queryTokens p.query) p).length else 0) +
  (if EntityType.professor ∈ enabledTypes p then
     (professorFetched s (queryTokens p.query) p).length else 0) +
  (if EntityType.course_instructor ∈ enabledTypes p then
     (ciFetched s (queryTokens p.query) p).length else 0) +
  (if p.deep ∧ EntityType.review ∈ enabledTypes p then
     (reviewFetched s (queryTokens p.query) p).length else 0) +
  (if p.deep ∧ EntityType.reply ∈ enabledTypes p then
     (replyFetched s (queryTokens p.query) p).length else 0)

instance : IsTotal ScoredItem mergedRel :=
  ⟨fun a b => (le_total b.relevance_score a.relevance_score).imp id id⟩

instance : IsTrans ScoredItem mergedRel :=
  ⟨fun _ _ _ hab hbc => le_trans hbc hab⟩

/-- An empty store (no rows in any table). -/
def emptyStore : Store := ⟨[], [], [], [], [], []⟩

/-- Concrete course used by counterexample stores. -/
def c3CourseA : Course := ⟨1, ['x'], ['y'], none, 0, 0⟩

/-- A second course identical to `c3CourseA` except for its key. -/
def c3CourseB : Course := ⟨2, ['x'], ['y'], none, 0, 0⟩

/-- A store with two courses both matching the query `x`. -/
def c3Store : Store := ⟨[c3CourseA, c3CourseB], [], [], [], [], []⟩

/-- A request for `x` over courses only, relevance sort, `skip = 1`. -/
def c3Params : SearchParams :=
  ⟨['x'], false, some [EntityType.course], none, none, none, none,
   some SortField.relevance, some SortOrder.desc, 1, 100⟩

/-- A course created at time 10 whose name matches the query `x`. -/
def c4Course : Course := ⟨1, ['x'], [], none, 10, 11⟩

/-- A professor created at time 20 whose name matches the query `x`. -/
def c4Professor : Professor := ⟨2, ['x'], none, none, 0, 20, 21⟩

/-- A store holding the course and the professor above. -/
def c4Store : Store := ⟨[c4Course], [c4Professor], [], [], [], []⟩

/-- A request for `x` sorted by `created_at` descending. -/
def c4Params : SearchParams :=
  ⟨['x'], false, none, none, none, none, none,
   some SortField.created_at, some SortOrder.desc, 0, 100⟩

/-- A request whose query normalizes to zero tokens. -/
def c6Params : SearchParams :=
  ⟨['?', '!'], false, none, none, none, none, none,
   some SortField.relevance, some SortOrder.desc, 0, 100⟩

/-- A request for `x` with default filters and sorting. -/
def c9Params : SearchParams :=
  ⟨['x'], false, none, none, none, none, none,
   some SortField.relevance, some SortOrder.desc, 0, 100⟩

/-- A fixed reference time for the feed scenarios (seconds). -/
def feedNow : Int := 1000000000

/-- A thirty-day-old review by followed user 2 on course 100. -/
def feedR8 : Review :=
  ⟨8, 2, some 100, none, none, 5, ['a'], feedNow - 2592000, feedNow - 2592000⟩

/-- A review on course 100 by user 3, timestamped one hour in the future. -/
def feedR9 : Review :=
  ⟨9, 3, some 100, none, none, 4, ['b'], feedNow + 3600, feedNow + 3600⟩

/-- A feed store where viewer 1 follows user 2. -/
def feedStoreA : FeedStore := ⟨[feedR8, feedR9], [(1, 2)]⟩

/-- A concrete draw stream: first draw 0.52, then 0.5 forever. -/
def feedRng : Nat → ℚ := fun n => if n = 0 then 13/25 else 1/2

/-- A feed store with no rows. -/
def emptyFeedStore : FeedStore := ⟨[], []⟩

/-- A non-empty store used to witness store-independence of rejection. -/
def c6StoreB : Store := ⟨[c3CourseA], [], [], [], [], []⟩

/-! Helper lemmas. -/

lemma toLower_not_upper (c : Char) : (Char.toLower c).isUpper = false := by
  unfold Char.toLower
  by_cases h : c.toNat ≥ 65 ∧ c.toNat ≤ 90
  · simp only [if_pos h]
    obtain ⟨h1, h2⟩ := h
    set n := c.toNat with hn
    interval_cases n <;> decide
  · simp only [if_neg h]
    rw [not_and_or] at h
    simp only [Char.isUpper, Bool.and_eq_false_iff]
    rcases h with h | h
    · left
      simp only [not_le] at h
      rw [decide_eq_false_iff_not]
      intro hle
      have h2 : (65 : UInt32).toNat ≤ c.val.toNat := hle
      have h65 : (65 : UInt32).toNat = 65 := by decide
      simp only [Char.toNat] at h
      omega
    · right
      simp only [not_le] at h
      rw [decide_eq_false_iff_not]
      intro hle
      have h2 : c.val.toNat ≤ (90 : UInt32).toNat := hle
      have h90 : (90 : UInt32).toNat = 90 := by decide
      simp only [Char.toNat] at h
      omega

lemma mem_collapseWsAux (b : Bool) (s : Str) (c : Char) (hc : c ∈ collapseWsAux b s) :
    c = ' ' ∨ c ∈ s := by
  induction s generalizing b with
  | nil => simp [collapseWsAux] at hc
  | cons a as ih =>
    simp only [collapseWsAux] at hc
    split_ifs at hc with ha hb
    · rcases ih true hc with h | h
      · exact Or.inl h
      · exact Or.inr (List.mem_cons_of_mem a h)
    · rcases List.mem_cons.mp hc with h | h
      · exact Or.inl h
      · rcases ih true h with h2 | h2
        · exact Or.inl h2
        · exact Or.inr (List.mem_cons_of_mem a h2)
    · rcases List.mem_cons.mp hc with h | h
      · exact Or.inr (h ▸ List.mem_cons_self a as)
      · rcases ih false h with h2 | h2
        · exact Or.inl h2
        · exact Or.inr (List.mem_cons_of_mem a h2)

lemma mem_splitSegs : ∀ (s : Str) (w : Str), w ∈ splitSegs s →
    ∀ c ∈ w, c ∈ s ∧ isSpaceChar c = false
  | [], w, hw => by simp [splitSegs] at hw
  | a :: as, w, hw => by
    intro c hc
    by_cases ha : isSpaceChar a
    · rw [splitSegs] at hw
      simp only [if_pos ha] at hw
      rcases List.mem_cons.mp hw with h | h
      · subst h; simp at hc
      · have h2 := mem_splitSegs as w h c hc
        exact ⟨List.mem_cons_of_mem a h2.1, h2.2⟩
    · rw [splitSegs] at hw
      simp only [if_neg ha] at hw
      cases hacc : splitSegs as with
      | nil =>
        rw [hacc] at hw
        simp only [List.mem_singleton] at hw
        subst hw
        simp only [List.mem_singleton] at hc
        subst hc
        exact ⟨List.mem_cons_self _ _, by simpa using ha⟩
      | cons v vs =>
        rw [hacc] at hw
        rcases List.mem_cons.mp hw with h | h
        · subst h
          rcases List.mem_cons.mp hc with h | h
          · subst h
            exact ⟨List.mem_cons_self _ _, by simpa using ha⟩
          · have h2 := mem_splitSegs as v (by rw [hacc]; exact List.mem_cons_self v vs) c h
            exact ⟨List.mem_cons_of_mem a h2.1, h2.2⟩
        · have h2 := mem_splitSegs as w (by rw [hacc]; exact List.mem_cons_of_mem v h) c hc
          exact ⟨List.mem_cons_of_mem a h2.1, h2.2⟩

/-! Claim C5. -/

/-- C5 (amended): the query normalizer lowercases, strips, removes every
character that is neither a word character (alphanumeric or underscore)
nor whitespace, collapses whitespace runs, and splits on whitespace; so
every produced token is non-empty and consists only of non-uppercase word
characters — underscores are kept, not removed. -/
theorem C5_token_chars (q : Str) (t : Str) (ht : t ∈ queryTokens q) :
    t ≠ [] ∧ ∀ c ∈ t, (c.isAlphanum || c == '_') = true ∧ c.isUpper = false := by
  unfold queryTokens splitWs at ht
  obtain ⟨ht1, ht2⟩ := List.mem_filter.mp ht
  constructor
  · simpa using ht2
  · intro c hc
    have hchar := mem_splitSegs (preprocess_query q) t ht1 c hc
    unfold preprocess_query collapseWs at hchar
    rcases mem_collapseWsAux false _ c hchar.1 with hsp | hmem
    · rw [hsp] at hchar
      simp [isSpaceChar] at hchar
    · obtain ⟨hmem2, hword⟩ := List.mem_filter.mp hmem
      have hword2 : isWordChar c = true := by
        rcases Bool.or_eq_true_iff.mp hword with h | h
        · exact h
        · rw [h] at hchar; exact absurd hchar.2 (by simp)
      obtain ⟨d, _, hd⟩ := List.mem_map.mp hmem2
      refine ⟨hword2, ?_⟩
      rw [← hd]
      exact toLower_not_upper d

/-- C5 witness: a concrete query whose first token keeps an underscore
and is fully lowercased. -/
theorem C5_token_chars_witness :
    (['a', 'b', '_', '1'] ∈ queryTokens ['a', 'B', '_', '1', ' ', 'c']) ∧
    (['a', 'b', '_', '1'] ≠ [] ∧ ∀ c ∈ ['a', 'b', '_', '1'],
      (c.isAlphanum || c == '_') = true ∧ c.isUpper = false) :=
  ⟨by decide, C5_token_chars ['a', 'B', '_', '1', ' ', 'c'] ['a', 'b', '_', '1'] (by decide)⟩

/-- C5 counterexample: the normalizer keeps underscores (the Python word
class): the query consisting of a single underscore produces the token
made of one underscore, which is neither alphanumeric nor whitespace, so
neither the removal rule nor the token characterization of the claim
holds as stated. -/
theorem C5_counterexample :
    queryTokens ['_'] = [['_']] ∧ Char.isAlphanum '_' = false ∧
    Char.isWhitespace '_' = false := by
  decide

/-! Claim C6. -/

/-- C6: a query that normalizes to zero tokens is rejected with HTTP 400,
and the outcome does not depend on the store in any way (no store read
can influence it). -/
theorem C6_empty_query_rejected (p : SearchParams) (s₁ s₂ : Store)
    (h : queryTokens p.query = []) :
    search p s₁ = Except.error 400 ∧ search p s₁ = search p s₂ := by
  have he : (queryTokens p.query).isEmpty = true := by rw [h]; rfl
  constructor
  · rw [search, if_pos he]
  · rw [search, if_pos he, search, if_pos he]

/-- C6 witness: the query `?!` normalizes to zero tokens and is rejected
identically on an empty store and a populated store. -/
theorem C6_empty_query_rejected_witness :
    queryTokens c6Params.query = [] ∧
    (search c6Params emptyStore = Except.error 400 ∧
     search c6Params emptyStore = search c6Params c6StoreB) :=
  ⟨by decide, C6_empty_query_rejected c6Params emptyStore c6StoreB (by decide)⟩

/-! Lemmas about the scoring primitives. -/

lemma countOccurAux_pos (n : Str) (hn : n ≠ []) : ∀ h : Str, isInfixB n h = true →
    1 ≤ countOccurAux n 0 h
  | [], hi => by
    cases n with
    | nil => exact absurd rfl hn
    | cons a as => simp [isInfixB, isPrefixB] at hi
  | c :: t, hi => by
    by_cases hp : isPrefixB n (c :: t)
    · simp only [countOccurAux, if_pos hp]
      omega
    · simp only [countOccurAux, if_neg hp]
      rw [isInfixB] at hi
      rcases Bool.or_eq_true_iff.mp hi with h | h
      · exact absurd h hp
      · exact countOccurAux_pos n hn t h

lemma countOccur_pos (n h : Str) (hi : isInfixB n h = true) : 1 ≤ countOccur n h := by
  unfold countOccur
  split_ifs with hn
  · omega
  · exact countOccurAux_pos n (by simpa using hn) h hi

lemma tokenScore_nonneg (tok text : Str) (w : ℝ) (hw : 0 ≤ w) :
    0 ≤ tokenScore tok text w := by
  unfold tokenScore
  split_ifs with hi
  · refine mul_nonneg (Real.log_nonneg ?_) hw
    have h0 : (0 : ℝ) ≤ (countOccur tok text : ℝ) := Nat.cast_nonneg _
    linarith
  · exact le_refl 0

lemma tokenScore_pos (tok text : Str) (w : ℝ) (hw : 0 < w)
    (hi : isInfixB tok text = true) : 0 < tokenScore tok text w := by
  unfold tokenScore
  rw [if_pos hi]
  refine mul_pos (Real.log_pos ?_) hw
  have h1 : 1 ≤ countOccur tok text := countOccur_pos tok text hi
  have h1R : (1 : ℝ) ≤ (countOccur tok text : ℝ) := by exact_mod_cast h1
  linarith

/-! Claim C1. -/

/-- C1 (amended): for a positive field weight, `calculate_relevance_score`
is nonnegative (it is a sum of logarithmic term scores, optionally
multiplied by 1.5, not a value clamped to a 0 to 100 scale), and it is
zero exactly when the text is empty or no token occurs in the lowercased
text. -/
theorem C1_score_characterization (tokens : List Str) (text : Str) (w : ℝ) (hw : 0 < w) :
    0 ≤ calculate_relevance_score tokens text w ∧
    (calculate_relevance_score tokens text w = 0 ↔
      text = [] ∨ ∀ t ∈ tokens, isInfixB t (pyLower text) = false) := by
  by_cases htext : text = []
  · subst htext
    constructor
    · simp [calculate_relevance_score]
    · simp [calculate_relevance_score]
  · have hne : text.isEmpty = false := by simpa using htext
    by_cases htok : tokens = []
    · subst htok
      constructor
      · simp [calculate_relevance_score]
      · simp [calculate_relevance_score]
    · have hnt : tokens.isEmpty = false := by simpa using htok
      unfold calculate_relevance_score
      rw [hne, hnt]
      simp only [Bool.or_self, Bool.false_eq_true, if_false]
      set base := (tokens.map (fun tok => tokenScore tok (pyLower text) w)).sum with hbase
      have hbase_nonneg : 0 ≤ base := by
        rw [hbase]
        refine List.sum_nonneg ?_
        intro x hx
        obtain ⟨tok, _, rfl⟩ := List.mem_map.mp hx
        exact tokenScore_nonneg _ _ _ hw.le
      have key : base = 0 ↔ ∀ t ∈ tokens, isInfixB t (pyLower text) = false := by
        constructor
        · intro h0 t htm
          by_contra hni
          have hi : isInfixB t (pyLower text) = true := by simpa using hni
          have hpos := tokenScore_pos t (pyLower text) w hw hi
          have hle : tokenScore t (pyLower text) w ≤ base := by
            rw [hbase]
            refine List.single_le_sum ?_ _ (List.mem_map_of_mem _ htm)
            intro x hx
            obtain ⟨tok, _, rfl⟩ := List.mem_map.mp hx
            exact tokenScore_nonneg _ _ _ hw.le
          linarith
        · intro hall
          rw [hbase]
          refine List.sum_eq_zero ?_
          intro x hx
          obtain ⟨tok, htokm, rfl⟩ := List.mem_map.mp hx
          unfold tokenScore
          rw [if_neg (by simp [hall tok htokm])]
      split_ifs with hphrase
      · constructor
        · exact mul_nonneg hbase_nonneg (by norm_num)
        · rw [mul_eq_zero]
          constructor
          · intro hor
            rcases hor with h | h
            · exact Or.inr (key.mp h)
            · norm_num at h
          · intro hor
            rcases hor with h | h
            · exact absurd h htext
            · exact Or.inl (key.mpr h)
      · refine ⟨hbase_nonneg, ?_⟩
        rw [key]
        constructor
        · exact fun h => Or.inr h
        · intro hor
          rcases hor with h | h
          · exact absurd h htext
          · exact h

/-- C1 witness: the characterization applied to the single token `a`
against the text `b` with weight 1. -/
theorem C1_score_characterization_witness :
    (0 : ℝ) < 1 ∧
    (0 ≤ calculate_relevance_score [['a']] ['b'] 1 ∧
     (calculate_relevance_score [['a']] ['b'] 1 = 0 ↔
       ['b'] = [] ∨ ∀ t ∈ [['a']], isInfixB t (pyLower ['b']) = false)) :=
  ⟨by norm_num, C1_score_characterization [['a']] ['b'] 1 (by norm_num)⟩

/-- C1 counterexample: for the token list consisting of `ab` against the
text `ab`, the space-joined phrase is a substring of the lowercased text,
yet the score is `log 2`, not 100: the implementation uses the unbounded
logarithmic scheme, not the claimed phrase-bonus-100 scale. -/
theorem C1_counterexample :
    isInfixB (joinSpace [['a', 'b']]) (pyLower ['a', 'b']) = true ∧
    calculate_relevance_score [['a', 'b']] ['a', 'b'] 1 = Real.log 2 ∧
    Real.log 2 ≠ 100 := by
  refine ⟨by decide, ?_, ?_⟩
  · have h1 : pyLower ['a', 'b'] = ['a', 'b'] := by decide
    have h2 : isInfixB ['a', 'b'] ['a', 'b'] = true := by decide
    have h3 : countOccur ['a', 'b'] ['a', 'b'] = 1 := by decide
    unfold calculate_relevance_score tokenScore
    rw [h1]
    simp [h2, h3]
    norm_num
  · intro h
    have hlt := Real.log_two_lt_d9
    rw [h] at hlt
    norm_num at hlt

/-! Claim C2. -/

/-- C2 (amended): `combine_relevance_scores` is the plain weighted sum of
the entries (name and code weighted 5, title 3, description and lab 2,
summary 1.5, content and unlisted fields 1): the empty map and any
all-zero map combine to 0 (not 1.0), and a single name entry of 100
combines to 500, so the result is neither floored at 1 nor clamped to
100. -/
theorem C2_combine_characterization :
    combine_relevance_scores [] = 0 ∧
    (∀ scores : List (String × ℝ), (∀ q ∈ scores, q.2 = 0) →
      combine_relevance_scores scores = 0) ∧
    combine_relevance_scores [("name", 100)] = 500 := by
  refine ⟨rfl, ?_, ?_⟩
  · intro scores hall
    unfold combine_relevance_scores
    refine List.sum_eq_zero ?_
    intro x hx
    obtain ⟨q, hq, rfl⟩ := List.mem_map.mp hx
    rw [hall q hq, zero_mul]
  · unfold combine_relevance_scores fieldWeightTable
    norm_num

/-- C2 witness: the all-zero clause applied to a one-entry map. -/
theorem C2_combine_characterization_witness :
    (∀ q ∈ [(("lab" : String), (0 : ℝ))], q.2 = 0) ∧
    combine_relevance_scores [("lab", 0)] = 0 :=
  ⟨by simp, C2_combine_characterization.2.1 [("lab", 0)] (by simp)⟩

/-- C2 counterexample: the empty score map combines to 0, while the claim
requires exactly 1.0. -/
theorem C2_counterexample :
    combine_relevance_scores [] = 0 ∧ (0 : ℝ) ≠ 1 :=
  ⟨rfl, by norm_num⟩

/-! Lemmas about the search pipeline. -/

lemma pySlice_length (skip limit : Nat) (l : List α) :
    (pySlice skip limit l).length = min limit (l.length - skip) := by
  simp [pySlice]

lemma search_courses_snd (s : Store) (tokens : List Str) (p : SearchParams) :
    (search_courses s tokens p).2 = (courseMatched s tokens p).length := rfl

lemma search_professors_snd (s : Store) (tokens : List Str) (p : SearchParams) :
    (search_professors s tokens p).2 = (professorMatched s tokens p).length := rfl

lemma search_course_instructors_snd (s : Store) (tokens : List Str) (p : SearchParams) :
    (search_course_instructors s tokens p).2 = (ciMatched s tokens p).length := rfl

lemma search_reviews_snd (s : Store) (tokens : List Str) (p : SearchParams) :
    (search_reviews s tokens p).2 = (reviewMatched s tokens p).length := rfl

lemma search_replies_snd (s : Store) (tokens : List Str) (p : SearchParams) :
    (search_replies s tokens p).2 = (replyMatched s tokens p).length := rfl

lemma courseOrdered_length (s : Store) (tokens : List Str) (p : SearchParams) :
    (courseOrdered s tokens p).length = (courseMatched s tokens p).length := by
  unfold courseOrdered
  split_ifs <;> simp

lemma professorOrdered_length (s : Store) (tokens : List Str) (p : SearchParams) :
    (professorOrdered s tokens p).length = (professorMatched s tokens p).length := by
  unfold professorOrdered
  split_ifs <;> simp

lemma ciOrdered_length (s : Store) (tokens : List Str) (p : SearchParams) :
    (ciOrdered s tokens p).length = (ciMatched s tokens p).length := by
  unfold ciOrdered
  split_ifs <;> simp

lemma reviewOrdered_length (s : Store) (tokens : List Str) (p : SearchParams) :
    (reviewOrdered s tokens p).length = (reviewMatched s tokens p).length := by
  unfold reviewOrdered
  split_ifs <;> simp

lemma replyOrdered_length (s : Store) (tokens : List Str) (p : SearchParams) :
    (replyOrdered s tokens p).length = (replyMatched s tokens p).length := by
  unfold replyOrdered
  split_ifs <;> simp

lemma courseFetched_length (s : Store) (tokens : List Str) (p : SearchParams) :
    (courseFetched s tokens p).length =
      if p.sort_by = some SortField.relevance then (courseMatched s tokens p).length
      else min p.limit ((courseMatched s tokens p).length - p.skip) := by
  unfold courseFetched
  split_ifs with h
  · exact courseOrdered_length s tokens p
  · rw [pySlice_length, courseOrdered_length]

lemma professorFetched_length (s : Store) (tokens : List Str) (p : SearchParams) :
    (professorFetched s tokens p).length =
      if p.sort_by = some SortField.relevance then (professorMatched s tokens p).length
      else min p.limit ((professorMatched s tokens p).length - p.skip) := by
  unfold professorFetched
  split_ifs with h
  · exact professorOrdered_length s tokens p
  · rw [pySlice_length, professorOrdered_length]

lemma ciFetched_length (s : Store) (tokens : List Str) (p : SearchParams) :
    (ciFetched s tokens p).length =
      if p.sort_by = some SortField.relevance then (ciMatched s tokens p).length
      else min p.limit ((ciMatched s tokens p).length - p.skip) := by
  unfold ciFetched
  split_ifs with h
  · exact ciOrdered_length s tokens p
  · rw [pySlice_length, ciOrdered_length]

lemma reviewFetched_length (s : Store) (tokens : List Str) (p : SearchParams) :
    (reviewFetched s tokens p).length =
      if p.sort_by = some SortField.relevance then (reviewMatched s tokens p).length
      else min p.limit ((reviewMatched s tokens p).length - p.skip) := by
  unfold reviewFetched
  split_ifs with h
  · exact reviewOrdered_length s tokens p
  · rw [pySlice_length, reviewOrdered_length]

lemma replyFetched_length (s : Store) (tokens : List Str) (p : SearchParams) :
    (replyFetched s tokens p).length =
      if p.sort_by = some SortField.relevance then (replyMatched s tokens p).length
      else min p.limit ((replyMatched s tokens p).length - p.skip) := by
  unfold replyFetched
  split_ifs with h
  · exact replyOrdered_length s tokens p
  · rw [pySlice_length, replyOrdered_length]

lemma search_courses_fst_length (s : Store) (tokens : List Str) (p : SearchParams) :
    (search_courses s tokens p).1.length =
      min p.limit ((courseMatched s tokens p).length - p.skip) := by
  unfold search_courses
  split_ifs with h
  · rw [pySlice_length]
    simp [courseFetched_length, h]
  · simp [courseFetched_length, h]

lemma search_professors_fst_length (s : Store) (tokens : List Str) (p : SearchParams) :
    (search_professors s tokens p).1.length =
      min p.limit ((professorMatched s tokens p).length - p.skip) := by
  unfold search_professors
  split_ifs with h
  · rw [pySlice_length]
    simp [professorFetched_length, h]
  · simp [professorFetched_length, h]

lemma search_course_instructors_fst_length (s : Store) (tokens : List Str) (p : SearchParams) :
    (search_course_instructors s tokens p).1.length =
      min p.limit ((ciMatched s tokens p).length - p.skip) := by
  unfold search_course_instructors
  split_ifs with h
  · rw [pySlice_length]
    simp [ciFetched_length, h]
  · simp [ciFetched_length, h]

lemma search_reviews_fst_length (s : Store) (tokens : List Str) (p : SearchParams) :
    (search_reviews s tokens p).1.length =
      min p.limit ((reviewMatched s tokens p).length - p.skip) := by
  unfold search_reviews
  split_ifs with h
  · rw [pySlice_length]
    simp [reviewFetched_length, h]
  · simp [reviewFetched_length, h]

lemma search_replies_fst_length (s : Store) (tokens : List Str) (p : SearchParams) :
    (search_replies s tokens p).1.length =
      min p.limit ((replyMatched s tokens p).length - p.skip) := by
  unfold search_replies
  split_ifs with h
  · rw [pySlice_length]
    simp [replyFetched_length, h]
  · simp [replyFetched_length, h]

lemma searchRaw_snd (p : SearchParams) (s : Store) :
    (searchRaw p s).2 = matchCountTotal p s := by
  simp only [searchRaw, matchCountTotal]
  split_ifs <;>
    simp [search_courses_snd, search_professors_snd, search_course_instructors_snd,
          search_reviews_snd, search_replies_snd]

lemma searchRaw_fst_length (p : SearchParams) (s : Store) :
    (searchRaw p s).1.length = slicedCountTotal p s := by
  simp only [searchRaw, slicedCountTotal]
  split_ifs <;>
    simp [search_courses_fst_length, search_professors_fst_length,
          search_course_instructors_fst_length, search_reviews_fst_length,
          search_replies_fst_length] <;> ring

lemma mergedSorted_length (p : SearchParams) (s : Store) :
    (mergedSorted p s).length = slicedCountTotal p s := by
  rw [mergedSorted, List.length_insertionSort, searchRaw_fst_length]

lemma search_ok (p : SearchParams) (s : Store) (h : queryTokens p.query ≠ []) :
    search p s = Except.ok
      ⟨matchCountTotal p s, pySlice p.skip p.limit (mergedSorted p s), p.query, p.deep⟩ := by
  unfold search
  rw [if_neg (by simpa using h), searchRaw_snd]

lemma search_ok_inv (p : SearchParams) (s : Store) (r : SearchResponse)
    (h : search p s = Except.ok r) :
    r.total = matchCountTotal p s ∧
    r.results = pySlice p.skip p.limit (mergedSorted p s) := by
  by_cases hq : queryTokens p.query = []
  · rw [search, if_pos (by simpa using hq)] at h
    cases h
  · rw [search_ok p s hq] at h
    rw [Except.ok.injEq] at h
    subst h
    exact ⟨rfl, rfl⟩

/-! Claim C3. -/

/-- C3 (amended): `total` is the sum over enabled adapters of the
pre-pagination match counts, but pagination is applied twice — once
inside every adapter and once on the merged list — so the returned
results list has length `min(limit, M - skip)` where
`M = Σ min(limit, count_a - skip)` is the merged length after the
per-adapter slices, not `min(limit, total - skip)`. -/
theorem C3_total_and_double_pagination (p : SearchParams) (s : Store) (r : SearchResponse)
    (h : search p s = Except.ok r) :
    r.total = matchCountTotal p s ∧
    r.results.length = min p.limit (slicedCountTotal p s - p.skip) := by
  obtain ⟨ht, hres⟩ := search_ok_inv p s r h
  refine ⟨ht, ?_⟩
  rw [hres, pySlice_length, mergedSorted_length]

/-- C3 witness: the double-pagination characterization applied to the
empty store. -/
theorem C3_total_and_double_pagination_witness :
    search c9Params emptyStore = Except.ok ⟨0, [], ['x'], false⟩ ∧
    ((0 : Nat) = matchCountTotal c9Params emptyStore ∧
     (([] : List ScoredItem)).length =
       min c9Params.limit (slicedCountTotal c9Params emptyStore - c9Params.skip)) :=
  ⟨rfl, C3_total_and_double_pagination c9Params emptyStore ⟨0, [], ['x'], false⟩ rfl⟩

/-- C3 counterexample: two identical matching courses, relevance sort,
`skip = 1`, `limit = 100`.  The adapter already drops one result, the
handler slice drops the other, so the response holds 0 results although
the claimed formula `min(limit, total - skip)` demands 1. -/
theorem C3_counterexample :
    search c3Params c3Store = Except.ok ⟨2, [], ['x'], false⟩ ∧
    ¬ ((([] : List ScoredItem)).length = min c3Params.limit (2 - c3Params.skip)) := by
  constructor
  · rw [search_ok c3Params c3Store (by decide)]
    have hm : matchCountTotal c3Params c3Store = 2 := by decide
    have hl : (mergedSorted c3Params c3Store).length = 1 := by
      rw [mergedSorted_length]
      decide
    have hslice : pySlice c3Params.skip c3Params.limit (mergedSorted c3Params c3Store) = [] := by
      unfold pySlice
      have hd : (mergedSorted c3Params c3Store).drop c3Params.skip = [] := by
        refine List.drop_eq_nil_of_le ?_
        rw [hl]
        decide
      rw [hd]
      rfl
    rw [hm, hslice]
    rfl
  · decide

/-! Claim C10. -/

/-- C10: the GET handler builds a `SearchParams` from its query
parameters and delegates to the POST handler, so for every parameter
assignment and store the two endpoints return the same response. -/
theorem C10_get_equals_post (query : Str) (deep : Bool)
    (entity_types : Option (List EntityType)) (course_id professor_id : Option Nat)
    (min_rating max_rating : Option Int) (sort_by : Option SortField)
    (sort_order : Option SortOrder) (skip limit : Nat) (s : Store) :
    search_get query deep entity_types course_id professor_id min_rating max_rating
      sort_by sort_order skip limit s =
    search ⟨query, deep, entity_types, course_id, professor_id, min_rating, max_rating,
            sort_by, sort_order, skip, limit⟩ s := rfl

/-! Claim C9. -/

lemma filter_length_mono {α : Type} (l : List α) (p q : α → Bool)
    (h : ∀ a ∈ l, p a = true → q a = true) :
    (l.filter p).length ≤ (l.filter q).length := by
  induction l with
  | nil => simp
  | cons a as ih =>
    have ih2 := ih (fun x hx => h x (List.mem_cons_of_mem a hx))
    rw [List.filter_cons, List.filter_cons]
    split_ifs with hp hq hq
    · simpa using ih2
    · exact absurd (h a (List.mem_cons_self a as) hp) (by simpa using hq)
    · exact le_trans ih2 (by simp)
    · exact ih2

lemma courseMatches_deep_mono (tokens : List Str) (c : Course)
    (h : courseMatches tokens false c = true) : courseMatches tokens true c = true := by
  simp only [courseMatches, List.any_eq_true] at h ⊢
  obtain ⟨t, ht, hc⟩ := h
  refine ⟨t, ht, ?_⟩
  simp only [Bool.false_and, Bool.or_false] at hc
  simp only [Bool.or_eq_true] at hc ⊢
  tauto

lemma professorMatches_deep_mono (tokens : List Str) (pr : Professor)
    (h : professorMatches tokens false pr = true) : professorMatches tokens true pr = true := by
  simp only [professorMatches, List.any_eq_true] at h ⊢
  obtain ⟨t, ht, hc⟩ := h
  refine ⟨t, ht, ?_⟩
  simp only [Bool.false_and, Bool.or_false] at hc
  simp only [Bool.or_eq_true] at hc ⊢
  tauto

lemma ciRowMatches_deep_mono (tokens : List Str) (p : SearchParams)
    (row : CourseInstructor × Course × Professor)
    (h : ciRowMatches tokens { p with deep := false } row = true) :
    ciRowMatches tokens { p with deep := true } row = true := by
  simp only [ciRowMatches, Bool.and_eq_true] at h ⊢
  refine ⟨⟨h.1.1, h.1.2⟩, ?_⟩
  have h2 := h.2
  simp only [Bool.or_eq_true] at h2 ⊢
  rcases h2 with h2 | h2
  · exact Or.inl h2
  · right
    simp only [List.any_eq_true] at h2 ⊢
    obtain ⟨t, ht, hc⟩ := h2
    refine ⟨t, ht, ?_⟩
    simp only [Bool.false_and, Bool.or_false] at hc
    simp only [Bool.or_eq_true] at hc ⊢
    tauto

/-- C9: with query, filters, sorting and pagination fixed, switching to
deep mode never decreases the returned `total` nor the number of
candidates fetched and scored: deep mode only widens each adapter filter
(OR of more conditions) and enables the review and reply adapters. -/
theorem C9_deep_monotone (q : Str) (et : Option (List EntityType))
    (cid pid : Option Nat) (minr maxr : Option Int) (sb : Option SortField)
    (so : Option SortOrder) (sk lim : Nat) (s : Store) (r₁ r₂ : SearchResponse)
    (h₁ : search ⟨q, false, et, cid, pid, minr, maxr, sb, so, sk, lim⟩ s = Except.ok r₁)
    (h₂ : search ⟨q, true, et, cid, pid, minr, maxr, sb, so, sk, lim⟩ s = Except.ok r₂) :
    r₁.total ≤ r₂.total ∧
    scoredCountTotal ⟨q, false, et, cid, pid, minr, maxr, sb, so, sk, lim⟩ s ≤
      scoredCountTotal ⟨q, true, et, cid, pid, minr, maxr, sb, so, sk, lim⟩ s := by
  set pf : SearchParams := ⟨q, false, et, cid, pid, minr, maxr, sb, so, sk, lim⟩ with hpf
  set pt : SearchParams := ⟨q, true, et, cid, pid, minr, maxr, sb, so, sk, lim⟩ with hpt
  obtain ⟨ht₁, _⟩ := search_ok_inv _ _ _ h₁
  obtain ⟨ht₂, _⟩ := search_ok_inv _ _ _ h₂
  have hE : enabledTypes pt = enabledTypes pf := rfl
  have hQ : queryTokens pt.query = queryTokens pf.query := rfl
  have hcourse : (courseMatched s (queryTokens pf.query) pf).length ≤
      (courseMatched s (queryTokens pf.query) pt).length := by
    refine filter_length_mono _ _ _ ?_
    exact fun a _ ha => courseMatches_deep_mono (queryTokens pf.query) a ha
  have hprof : (professorMatched s (queryTokens pf.query) pf).length ≤
      (professorMatched s (queryTokens pf.query) pt).length := by
    refine filter_length_mono _ _ _ ?_
    exact fun a _ ha => professorMatches_deep_mono (queryTokens pf.query) a ha
  have hci : (ciMatched s (queryTokens pf.query) pf).length ≤
      (ciMatched s (queryTokens pf.query) pt).length := by
    refine filter_length_mono _ _ _ ?_
    intro a _ ha
    have h1 : ciRowMatches (queryTokens pf.query) { pf with deep := false } a = true := ha
    have h2 := ciRowMatches_deep_mono (queryTokens pf.query) pf a h1
    exact h2
  have hrev : (reviewMatched s (queryTokens pf.query) pt).length =
      (reviewMatched s (queryTokens pf.query) pt).length := rfl
  constructor
  · rw [ht₁, ht₂]
    unfold matchCountTotal
    rw [hE, hQ]
    have hdf : (pf.deep = true) = False := by simp [hpf]
    have hdt : (pt.deep = true) = True := by simp [hpt]
    simp only [hdf, hdt, false_and, if_false, true_and]
    refine Nat.add_le_add (Nat.add_le_add (Nat.add_le_add (Nat.add_le_add ?_ ?_) ?_) ?_) ?_
    · split_ifs with h
      · exact hcourse
      · exact le_refl 0
    · split_ifs with h
      · exact hprof
      · exact le_refl 0
    · split_ifs with h
      · exact hci
      · exact le_refl 0
    · split_ifs with h
      · exact Nat.zero_le _
      · exact le_refl 0
    · split_ifs with h
      · exact Nat.zero_le _
      · exact le_refl 0
  · unfold scoredCountTotal
    rw [hE, hQ]
    rw [courseFetched_length, courseFetched_length, professorFetched_length,
        professorFetched_length, ciFetched_length, ciFetched_length,
        reviewFetched_length, reviewFetched_length, replyFetched_length,
        replyFetched_length]
    have hdf : (pf.deep = true) = False := by simp [hpf]
    have hdt : (pt.deep = true) = True := by simp [hpt]
    simp only [hdf, hdt, false_and, if_false, true_and]
    refine Nat.add_le_add (Nat.add_le_add (Nat.add_le_add (Nat.add_le_add ?_ ?_) ?_) ?_) ?_
    · split_ifs with h hr
      · exact hcourse
      · exact min_le_min (le_refl _) (Nat.sub_le_sub_right hcourse _)
      · exact le_refl 0
    · split_ifs with h hr
      · exact hprof
      · exact min_le_min (le_refl _) (Nat.sub_le_sub_right hprof _)
      · exact le_refl 0
    · split_ifs with h hr
      · exact hci
      · exact min_le_min (le_refl _) (Nat.sub_le_sub_right hci _)
      · exact le_refl 0
    · split_ifs with h hr
      · exact Nat.zero_le _
      · exact Nat.zero_le _
      · exact le_refl 0
    · split_ifs with h hr
      · exact Nat.zero_le _
      · exact Nat.zero_le _
      · exact le_refl 0

/-! Claim C4. -/

lemma calc_nil (tokens : List Str) (w : ℝ) : calculate_relevance_score tokens [] w = 0 := by
  simp [calculate_relevance_score]

lemma c4_raw : (searchRaw c4Params c4Store).1 =
    [courseItem (queryTokens c4Params.query) false c4Course,
     professorItem (queryTokens c4Params.query) false c4Professor] := by
  simp only [searchRaw]
  rw [if_pos (show EntityType.course ∈ enabledTypes c4Params by decide),
      if_pos (show EntityType.professor ∈ enabledTypes c4Params by decide),
      if_pos (show EntityType.course_instructor ∈ enabledTypes c4Params by decide),
      if_neg (show ¬(c4Params.deep = true ∧ EntityType.review ∈ enabledTypes c4Params) by decide),
      if_neg (show ¬(c4Params.deep = true ∧ EntityType.reply ∈ enabledTypes c4Params) by decide)]
  unfold search_courses search_professors search_course_instructors
  dsimp only
  rw [if_neg (show ¬(c4Params.sort_by = some SortField.relevance) by decide),
      if_neg (show ¬(c4Params.sort_by = some SortField.relevance) by decide),
      if_neg (show ¬(c4Params.sort_by = some SortField.relevance) by decide)]
  rw [show courseFetched c4Store (queryTokens c4Params.query) c4Params = [c4Course] by decide,
      show professorFetched c4Store (queryTokens c4Params.query) c4Params = [c4Professor]
        by decide,
      show ciFetched c4Store (queryTokens c4Params.query) c4Params = [] by decide]
  simp
  exact ⟨rfl, rfl⟩

lemma c4_score_eq : (courseItem (queryTokens c4Params.query) false c4Course).relevance_score =
    (professorItem (queryTokens c4Params.query) false c4Professor).relevance_score := by
  simp [courseItem, professorItem, courseFieldScores, professorFieldScores,
        c4Course, c4Professor, combine_relevance_scores, calc_nil]

lemma c4_merged : mergedSorted c4Params c4Store =
    [courseItem (queryTokens c4Params.query) false c4Course,
     professorItem (queryTokens c4Params.query) false c4Professor] := by
  rw [mergedSorted, c4_raw]
  simp only [List.insertionSort, List.orderedInsert]
  rw [if_pos (show mergedRel (courseItem (queryTokens c4Params.query) false c4Course)
    (professorItem (queryTokens c4Params.query) false c4Professor)
    from le_of_eq c4_score_eq.symm)]

/-- C4 (amended): regardless of the requested sort field and direction,
the merged cross-adapter list the handler slices is stable-sorted by
relevance score in non-increasing order (`reverse=True` on the score
alone); `sort_by` and `sort_order` only influence which candidates each
adapter retrieves, never the final cross-adapter order. -/
theorem C4_merged_sort_ignores_params (p : SearchParams) (s : Store) :
    List.Sorted mergedRel (mergedSorted p s) ∧
    ∀ r : SearchResponse, search p s = Except.ok r →
      r.results = pySlice p.skip p.limit (mergedSorted p s) := by
  constructor
  · exact List.sorted_insertionSort mergedRel _
  · intro r h
    exact (search_ok_inv p s r h).2

/-- C4 witness: the merged-sort characterization applied to the empty
store. -/
theorem C4_merged_sort_ignores_params_witness :
    search c9Params emptyStore = Except.ok ⟨0, [], ['x'], false⟩ ∧
    (List.Sorted mergedRel (mergedSorted c9Params emptyStore) ∧
     ([] : List ScoredItem) =
       pySlice c9Params.skip c9Params.limit (mergedSorted c9Params emptyStore)) :=
  ⟨rfl, (C4_merged_sort_ignores_params c9Params emptyStore).1,
   (C4_merged_sort_ignores_params c9Params emptyStore).2 ⟨0, [], ['x'], false⟩ rfl⟩

/-- C4 counterexample: a request sorted by `created_at` descending over a
store holding one course (created at 10) and one professor (created at
20) with equal relevance scores.  The response lists the course first, so
the merged list is not ordered by the entity timestamp as claimed. -/
theorem C4_counterexample :
    (search c4Params c4Store).map
      (fun r => r.results.map (fun it => payloadCreatedAt it.payload)) =
      Except.ok [10, 20] ∧
    ¬ List.Pairwise (fun a b : Int => b ≤ a) [10, 20] := by
  constructor
  · rw [search_ok c4Params c4Store (by decide)]
    simp only [Except.map]
    rw [c4_merged]
    simp [pySlice, courseItem, professorItem, payloadCreatedAt, c4Course, c4Professor]
    rfl
  · decide

/-! Lemmas about the feed sampling loops. -/

lemma samplePhase_shape (limit : Nat) (prob : Review → ℚ) (rng : Nat → ℚ) :
    ∀ (cs : List Review) (i : Nat) (acc : List Review),
      ∃ sub : List Review, (samplePhase limit prob rng i acc cs).1 = acc ++ sub ∧
        sub.Sublist cs
  | [], i, acc => ⟨[], by simp [samplePhase], List.nil_sublist []⟩
  | c :: cs, i, acc => by
    rw [samplePhase]
    split_ifs with hl hd
    · exact ⟨[], by simp, List.nil_sublist _⟩
    · obtain ⟨sub, h1, h2⟩ := samplePhase_shape limit prob rng cs (i + 1) (acc ++ [c])
      refine ⟨c :: sub, ?_, List.Sublist.cons₂ c h2⟩
      rw [h1]
      simp
    · obtain ⟨sub, h1, h2⟩ := samplePhase_shape limit prob rng cs (i + 1) acc
      exact ⟨sub, h1, h2.cons c⟩

lemma sampleNoLimit_shape (prob : Review → ℚ) (rng : Nat → ℚ) :
    ∀ (cs : List Review) (i : Nat) (acc : List Review),
      ∃ sub : List Review, (sampleNoLimit prob rng i acc cs).1 = acc ++ sub ∧
        sub.Sublist cs
  | [], i, acc => ⟨[], by simp [sampleNoLimit], List.nil_sublist []⟩
  | c :: cs, i, acc => by
    rw [sampleNoLimit]
    split_ifs with hd
    · obtain ⟨sub, h1, h2⟩ := sampleNoLimit_shape prob rng cs (i + 1) (acc ++ [c])
      refine ⟨c :: sub, ?_, List.Sublist.cons₂ c h2⟩
      rw [h1]
      simp
    · obtain ⟨sub, h1, h2⟩ := sampleNoLimit_shape prob rng cs (i + 1) acc
      exact ⟨sub, h1, h2.cons c⟩

lemma samplePhase_head_mem (limit : Nat) (prob : Review → ℚ) (rng : Nat → ℚ) (i : Nat)
    (acc : List Review) (c : Review) (cs : List Review)
    (hlen : acc.length < limit) (hacc : c ∉ acc) (hcs : c ∉ cs) :
    c ∈ (samplePhase limit prob rng i acc (c :: cs)).1 ↔ rng i < prob c := by
  rw [samplePhase]
  rw [if_neg (by omega : ¬ limit ≤ acc.length)]
  split_ifs with hdraw
  · constructor
    · intro _
      exact hdraw
    · intro _
      obtain ⟨sub, h1, _⟩ := samplePhase_shape limit prob rng cs (i + 1) (acc ++ [c])
      rw [h1]
      simp
  · constructor
    · intro hmem
      obtain ⟨sub, h1, h2⟩ := samplePhase_shape limit prob rng cs (i + 1) acc
      rw [h1] at hmem
      rcases List.mem_append.mp hmem with h | h
      · exact absurd h hacc
      · exact absurd (h2.subset h) hcs
    · intro h
      exact absurd h hdraw

lemma sampleNoLimit_head_mem (prob : Review → ℚ) (rng : Nat → ℚ) (i : Nat)
    (acc : List Review) (c : Review) (cs : List Review)
    (hacc : c ∉ acc) (hcs : c ∉ cs) :
    c ∈ (sampleNoLimit prob rng i acc (c :: cs)).1 ↔ rng i < prob c := by
  rw [sampleNoLimit]
  split_ifs with hdraw
  · constructor
    · intro _
      exact hdraw
    · intro _
      obtain ⟨sub, h1, _⟩ := sampleNoLimit_shape prob rng cs (i + 1) (acc ++ [c])
      rw [h1]
      simp
  · constructor
    · intro hmem
      obtain ⟨sub, h1, h2⟩ := sampleNoLimit_shape prob rng cs (i + 1) acc
      rw [h1] at hmem
      rcases List.mem_append.mp hmem with h | h
      · exact absurd h hacc
      · exact absurd (h2.subset h) hcs
    · intro h
      exact absurd h hdraw

lemma ids_nodup_of_sublist {l₁ l₂ : List Review} (h : l₁.Sublist l₂)
    (hn : (l₂.map Review.id).Nodup) : (l₁.map Review.id).Nodup :=
  hn.sublist (h.map Review.id)

lemma ids_nodup_perm {l₁ l₂ : List Review} (h : l₁.Perm l₂)
    (hn : (l₂.map Review.id).Nodup) : (l₁.map Review.id).Nodup :=
  ((h.map Review.id).nodup_iff).mpr hn

lemma ids_nodup_filter (P : Review → Bool) (base : List Review)
    (hids : (base.map Review.id).Nodup) : ((base.filter P).map Review.id).Nodup :=
  hids.sublist ((List.filter_sublist base).map Review.id)

lemma mem_contains_true {l : List Nat} {x : Nat} (h : x ∈ l) : l.contains x = true := by
  simpa using h

lemma phase1_props (st : FeedStore) (viewer : Nat) (now : Int) (rng : Nat → ℚ) :
    (∀ r ∈ (phase1 st viewer now rng).1,
       r ∈ st.reviews ∧ (followedIds st viewer).contains r.user_id = true) ∧
    ((st.reviews.map Review.id).Nodup →
      ((phase1 st viewer now rng).1.map Review.id).Nodup) := by
  unfold phase1
  split_ifs with hf
  · obtain ⟨sub, h1, h2⟩ := sampleNoLimit_shape (fun _ => socialProb) rng
      (phase1Cand st viewer now) 0 []
    rw [h1]
    simp only [List.nil_append]
    constructor
    · intro r hr
      have h3 := h2.subset hr
      rw [phase1Cand, List.mem_insertionSort] at h3
      obtain ⟨hmem, hP⟩ := List.mem_filter.mp h3
      refine ⟨hmem, ?_⟩
      rw [phase1Cond] at hP
      simp only [Bool.and_eq_true] at hP
      exact hP.1
    · intro hids
      refine ids_nodup_of_sublist h2 ?_
      rw [phase1Cand]
      exact ids_nodup_perm (List.perm_insertionSort _ _) (ids_nodup_filter _ _ hids)
  · constructor
    · intro r hr
      simp at hr
    · intro _
      simp

lemma phase2_decomp (st : FeedStore) (viewer : Nat) (now : Int) (limit : Nat)
    (rng : Nat → ℚ) (prev : List Review × Nat) :
    ∃ extra : List Review, (phase2 st viewer now limit rng prev).1 = prev.1 ++ extra ∧
      (∀ r ∈ extra, r ∈ st.reviews ∧ (followedIds st viewer).contains r.user_id = false) ∧
      ((st.reviews.map Review.id).Nodup → (extra.map Review.id).Nodup) := by
  unfold phase2
  split_ifs with h1 h2
  · obtain ⟨sub, hs1, hs2⟩ := samplePhase_shape limit (topicalProb now) rng
      (phase2Cand st viewer) prev.2 prev.1
    refine ⟨sub, hs1, ?_, ?_⟩
    · intro r hr
      have h3 := hs2.subset hr
      rw [phase2Cand] at h3
      have h4 := (List.take_sublist 50 _).subset h3
      rw [List.mem_insertionSort] at h4
      obtain ⟨hmem, hP⟩ := List.mem_filter.mp h4
      refine ⟨hmem, ?_⟩
      rw [phase2Cond] at hP
      simp only [Bool.and_eq_true] at hP
      have h5 := hP.1.2
      simpa using h5
    · intro hids
      have hsub2 : sub.Sublist (List.insertionSort
          (orderRel Review.created_at (some SortOrder.desc))
          (st.reviews.filter (phase2Cond st viewer))) := by
        refine hs2.trans ?_
        rw [phase2Cand]
        exact List.take_sublist 50 _
      exact ids_nodup_of_sublist hsub2
        (ids_nodup_perm (List.perm_insertionSort _ _) (ids_nodup_filter _ _ hids))
  · exact ⟨[], by simp, by intro r hr; simp at hr, by intro _; simp⟩
  · exact ⟨[], by simp, by intro r hr; simp at hr, by intro _; simp⟩

lemma phase3_decomp (st : FeedStore) (viewer : Nat) (now : Int) (limit : Nat)
    (rng : Nat → ℚ) (randOrder : List Review → List Review)
    (hrand : ∀ l, (randOrder l).Perm l) (prev : List Review × Nat) :
    ∃ extra : List Review,
      (phase3 st viewer now limit rng randOrder prev).1 = prev.1 ++ extra ∧
      (∀ r ∈ extra, r ∈ st.reviews ∧ (prev.1.map Review.id).contains r.id = false) ∧
      ((st.reviews.map Review.id).Nodup → (extra.map Review.id).Nodup) := by
  unfold phase3
  split_ifs with h1
  · obtain ⟨sub, hs1, hs2⟩ := samplePhase_shape limit (exploratoryProb now) rng
      (phase3Cand st viewer (prev.1.map Review.id) (limit - prev.1.length) randOrder)
      prev.2 prev.1
    refine ⟨sub, hs1, ?_, ?_⟩
    · intro r hr
      have h3 := hs2.subset hr
      rw [phase3Cand] at h3
      have h4 := (List.take_sublist _ _).subset h3
      rw [(hrand _).mem_iff] at h4
      obtain ⟨hmem, hP⟩ := List.mem_filter.mp h4
      refine ⟨hmem, ?_⟩
      rw [phase3Cond] at hP
      simp only [Bool.and_eq_true] at hP
      have h5 := hP.1
      simpa using h5
    · intro hids
      have hsub3 : sub.Sublist
          (randOrder (st.reviews.filter
            (phase3Cond viewer (prev.1.map Review.id)))) := by
        refine hs2.trans ?_
        rw [phase3Cand]
        exact List.take_sublist _ _
      exact ids_nodup_of_sublist hsub3
        (ids_nodup_perm (hrand _) (ids_nodup_filter _ _ hids))
  · exact ⟨[], by simp, by intro r hr; simp at hr, by intro _; simp⟩

/-! Claim C7. -/

lemma c7_phase1 : phase1 feedStoreA 1 feedNow feedRng = ([], 0) := by decide

lemma c7_phase2 : phase2 feedStoreA 1 feedNow 20 feedRng ([], 0) = ([feedR9], 1) := by
  unfold phase2
  rw [if_pos (by decide), if_pos (by decide)]
  rw [show phase2Cand feedStoreA 1 = [feedR9] from by decide]
  rw [samplePhase]
  rw [if_neg (by decide : ¬ ((20 : Nat) ≤ ((([] : List Review), 0).1).length))]
  have hdraw : feedRng 0 < topicalProb feedNow feedR9 := by
    rw [topicalProb, show daysOld feedNow feedR9.created_at = -1 from by decide]
    norm_num [feedRng]
  rw [if_pos hdraw, samplePhase]
  rfl

lemma c7_phase3 : phase3 feedStoreA 1 feedNow 20 feedRng id ([feedR9], 1) = ([feedR9], 2) := by
  unfold phase3
  rw [if_pos (by decide)]
  rw [show phase3Cand feedStoreA 1 ((([feedR9] : List Review), 1).1.map Review.id)
      (20 - (([feedR9] : List Review), 1).1.length) id = [feedR8] from by decide]
  rw [samplePhase]
  rw [if_neg (by decide : ¬ ((20 : Nat) ≤ ((([feedR9] : List Review), 1).1).length))]
  have hdraw : ¬ (feedRng 1 < exploratoryProb feedNow feedR8) := by
    rw [exploratoryProb, show daysOld feedNow feedR8.created_at = 30 from by decide]
    norm_num [feedRng]
  rw [if_neg hdraw, samplePhase]

/-- C7 (amended): within the sampling loops, a candidate at the head of
the pool (with slots remaining and no duplicates around) is kept exactly
when its draw is below `max(0.1, 0.5 - 0.05 * days_old)` (topical),
`max(0.1, 0.3 - 0.02 * days_old)` (exploratory) or `0.8` (social), where
`days_old` is the floor of the elapsed days and is NOT clamped to be
non-negative: future-dated content gets a probability above the claimed
base rate. -/
theorem C7_trial_probabilities (now : Int) (limit : Nat) (rng : Nat → ℚ) (i : Nat)
    (acc : List Review) (c : Review) (cs : List Review)
    (hlen : acc.length < limit) (hacc : c ∉ acc) (hcs : c ∉ cs) :
    (c ∈ (samplePhase limit (topicalProb now) rng i acc (c :: cs)).1 ↔
      rng i < max (1/10 : ℚ) (1/2 - (daysOld now c.created_at : ℚ) * (1/20))) ∧
    (c ∈ (samplePhase limit (exploratoryProb now) rng i acc (c :: cs)).1 ↔
      rng i < max (1/10 : ℚ) (3/10 - (daysOld now c.created_at : ℚ) * (1/50))) ∧
    (c ∈ (sampleNoLimit (fun _ => socialProb) rng i acc (c :: cs)).1 ↔
      rng i < 4/5) :=
  ⟨samplePhase_head_mem limit (topicalProb now) rng i acc c cs hlen hacc hcs,
   samplePhase_head_mem limit (exploratoryProb now) rng i acc c cs hlen hacc hcs,
   sampleNoLimit_head_mem (fun _ => socialProb) rng i acc c cs hacc hcs⟩

/-- C7 witness: the trial characterization applied to a concrete
candidate and draw stream. -/
theorem C7_trial_probabilities_witness :
    ((([] : List Review)).length < 5 ∧ feedR9 ∉ ([] : List Review) ∧
      feedR9 ∉ ([] : List Review)) ∧
    ((feedR9 ∈ (samplePhase 5 (topicalProb feedNow) feedRng 0 [] [feedR9]).1 ↔
       feedRng 0 < max (1/10 : ℚ)
         (1/2 - (daysOld feedNow feedR9.created_at : ℚ) * (1/20))) ∧
     (feedR9 ∈ (samplePhase 5 (exploratoryProb feedNow) feedRng 0 [] [feedR9]).1 ↔
       feedRng 0 < max (1/10 : ℚ)
         (3/10 - (daysOld feedNow feedR9.created_at : ℚ) * (1/50))) ∧
     (feedR9 ∈ (sampleNoLimit (fun _ => socialProb) feedRng 0 [] [feedR9]).1 ↔
       feedRng 0 < 4/5)) :=
  ⟨⟨by decide, by decide, by decide⟩,
   C7_trial_probabilities feedNow 5 feedRng 0 [] feedR9 []
     (by decide) (by decide) (by decide)⟩

/-- C7 counterexample: a topical candidate dated one hour in the future
has `days_old = -1`, so the code keeps it on a draw of 0.52 (threshold
0.55), while the claimed clamped formula gives probability 0.5 and would
have dropped that draw. -/
theorem C7_counterexample :
    get_feed 0 20 1 feedNow feedStoreA feedRng id id = [feedR9] ∧
    daysOld feedNow feedR9.created_at = -1 ∧
    ¬ (feedRng 0 < max (1/10 : ℚ)
        ((1/2 : ℚ) - ((max 0 (daysOld feedNow feedR9.created_at) : ℤ) : ℚ) * (1/20))) := by
  refine ⟨?_, by decide, ?_⟩
  · simp only [get_feed, c7_phase1, c7_phase2, c7_phase3]
    rfl
  · rw [show daysOld feedNow feedR9.created_at = -1 from by decide]
    rw [show max (0 : ℤ) (-1) = 0 from by decide]
    norm_num [feedRng]

/-! Claim C8. -/

/-- C8: one feed response never contains the same review id twice: the
phases select pairwise-disjoint review sets (phase 2 excludes followed
and own authors, phase 3 excludes already-selected ids), and sampling,
shuffling and slicing preserve distinctness, assuming the store rows have
distinct ids and the injected shuffle and random ordering are
permutations. -/
theorem C8_no_duplicate_ids (skip limit viewer : Nat) (now : Int) (st : FeedStore)
    (rng : Nat → ℚ) (shuffle randOrder : List Review → List Review)
    (hids : (st.reviews.map Review.id).Nodup)
    (hshuffle : ∀ l, (shuffle l).Perm l) (hrand : ∀ l, (randOrder l).Perm l) :
    ((get_feed skip limit viewer now st rng shuffle randOrder).map Review.id).Nodup := by
  unfold get_feed
  dsimp only
  obtain ⟨hmem1, hnd1⟩ := phase1_props st viewer now rng
  obtain ⟨e2, he2, hmem2, hnd2⟩ := phase2_decomp st viewer now limit rng
    (phase1 st viewer now rng)
  obtain ⟨e3, he3, hmem3, hnd3⟩ := phase3_decomp st viewer now limit rng randOrder hrand
    (phase2 st viewer now limit rng (phase1 st viewer now rng))
  have hnodup12 : (((phase1 st viewer now rng).1 ++ e2).map Review.id).Nodup := by
    rw [List.map_append]
    refine List.nodup_append.mpr ⟨hnd1 hids, hnd2 hids, ?_⟩
    intro x hx1 hx2
    obtain ⟨r1, hr1, hid1⟩ := List.mem_map.mp hx1
    obtain ⟨r2, hr2, hid2⟩ := List.mem_map.mp hx2
    have hin1 := hmem1 r1 hr1
    have hin2 := hmem2 r2 hr2
    have heq : r1 = r2 :=
      List.inj_on_of_nodup_map hids hin1.1 hin2.1 (by rw [hid1, hid2])
    rw [heq] at hin1
    rw [hin2.2] at hin1
    exact absurd hin1.2 (by simp)
  have hnodup123 :
      ((phase3 st viewer now limit rng randOrder
        (phase2 st viewer now limit rng (phase1 st viewer now rng))).1.map
          Review.id).Nodup := by
    rw [he3, he2, List.map_append]
    refine List.nodup_append.mpr ⟨hnodup12, hnd3 hids, ?_⟩
    intro x hx1 hx2
    obtain ⟨r3, hr3, hid3⟩ := List.mem_map.mp hx2
    have hex := (hmem3 r3 hr3).2
    rw [he2] at hex
    have hmm : r3.id ∈ ((phase1 st viewer now rng).1 ++ e2).map Review.id := by
      rw [hid3]
      exact hx1
    rw [mem_contains_true hmm] at hex
    cases hex
  have hsh : ((shuffle ((phase3 st viewer now limit rng randOrder
      (phase2 st viewer now limit rng (phase1 st viewer now rng))).1)).map
        Review.id).Nodup :=
    ids_nodup_perm (hshuffle _) hnodup123
  refine ids_nodup_of_sublist ?_ hsh
  exact (List.take_sublist _ _).trans (List.drop_sublist _ _)

/-- C8 witness: the distinctness invariant applied to the empty feed
store with identity shuffles. -/
theorem C8_no_duplicate_ids_witness :
    (emptyFeedStore.reviews.map Review.id).Nodup ∧
    ((get_feed 0 20 1 0 emptyFeedStore (fun _ => 0) id id).map Review.id).Nodup :=
  ⟨by decide,
   C8_no_duplicate_ids 0 20 1 0 emptyFeedStore (fun _ => 0) id id (by decide)
     (fun l => List.Perm.refl l) (fun l => List.Perm.refl l)⟩

/-- C9 witness: the monotonicity applied on the empty store, where both
modes return zero results. -/
theorem C9_deep_monotone_witness :
    search ⟨['x'], false, none, none, none, none, none, some SortField.relevance,
      some SortOrder.desc, 0, 100⟩ emptyStore = Except.ok ⟨0, [], ['x'], false⟩ ∧
    search ⟨['x'], true, none, none, none, none, none, some SortField.relevance,
      some SortOrder.desc, 0, 100⟩ emptyStore = Except.ok ⟨0, [], ['x'], true⟩ ∧
    ((0 : Nat) ≤ (0 : Nat) ∧
     scoredCountTotal ⟨['x'], false, none, none, none, none, none, some SortField.relevance,
       some SortOrder.desc, 0, 100⟩ emptyStore ≤
       scoredCountTotal ⟨['x'], true, none, none, none, none, none, some SortField.relevance,
         some SortOrder.desc, 0, 100⟩ emptyStore) :=
  ⟨rfl, rfl,
   C9_deep_monotone ['x'] none none none none none (some SortField.relevance)
     (some SortOrder.desc) 0 100 emptyStore ⟨0, [], ['x'], false⟩ ⟨0, [], ['x'], true⟩ rfl rfl⟩

end Whispr
